import Mathlib

/-!
Verification development for `df_to_ppt.py`.

Shallow embedding of the repository's value-formatting helper
(`round_to_n`, `_do_formatting`), the position-parameter helper
(`process_position_parameter`) and the table builder (`df_to_table`),
together with theorems settling the specification claims.

Modelling conventions:
* Python scalars drawn from a dataframe cell are `PyValue`
  (an integer, a floating-point number, or a string, as in the spec's
  data model).  Floating-point numbers are idealized as exact rationals;
  every IEEE double is a rational, and Python renders a double by
  correctly rounding its exact rational value, so the decimal renderers
  below agree with Python on double inputs (ties broken half-to-even).
  All rational arithmetic is carried out on numerator/denominator pairs
  so that every definition evaluates inside the kernel.
* Fallible Python code (raising exceptions) is modelled with
  `Except Unit`.
* The builtin `format(value, spec)` is modelled by `pyFormat` for the
  fragment of the format mini-language exercised here:
  optional grouping comma, optional precision, and the presentation
  types d, f, F, g, G, s.  Specifications outside this fragment are
  conservatively rejected (Python's `ValueError`), matching Python on
  every specification this development evaluates.
-/

deriving instance DecidableEq for Except

/-- A scalar table value: integer, float (idealized as `ℚ`) or string. -/
inductive PyValue where
  | int (n : ℤ)
  | float (q : ℚ)
  | str (s : String)
deriving DecidableEq

/-- Round the fraction `n / d` (with `d` a positive natural) to the
nearest integer, ties to even — the rounding used by Python's builtin
`round` and by float formatting. -/
def rheND (n : ℤ) (d : ℕ) : ℤ :=
  let f := Int.fdiv n d
  let t := 2 * (n - f * d)
  if t < (d : ℤ) then f
  else if (d : ℤ) < t then f + 1
  else if f % 2 = 0 then f else f + 1

/-- Number of decimal digits of a natural number (1 for 0). -/
def digLen (n : ℕ) : ℕ := (Nat.toDigits 10 n).length

/-- `⌊log10 (a / b)⌋` for positive naturals `a`, `b` (the mathematical
value of `floor(log10(q))` on a positive rational; Python computes it
in floating point, idealized here as exact). -/
def qLog10FloorND (a b : ℕ) : ℤ :=
  let L := digLen b
  ((digLen (a * 10 ^ L / b) - 1 : ℕ) : ℤ) - L

/-- Python `round(m, nd)` on an integer `m`: exact, ties to even,
returns an integer. -/
def pyRoundInt (m : ℤ) (nd : ℤ) : ℤ :=
  if 0 ≤ nd then m
  else
    let k := (-nd).toNat
    rheND m (10 ^ k) * (10 : ℤ) ^ k

/-- Python `round(q, nd)` on a float (idealized as the exact rational
`q`): round at `nd` decimal digits, ties to even. -/
def pyRoundRat (q : ℚ) (nd : ℤ) : ℚ :=
  if 0 ≤ nd then mkRat (rheND (q.num * 10 ^ nd.toNat) q.den) (10 ^ nd.toNat)
  else mkRat (rheND q.num (q.den * 10 ^ (-nd).toNat) * (10 : ℤ) ^ (-nd).toNat) 1

/-- Embedding of
`round_to_n = lambda x, n: round(x, -int(floor(log10(abs(x)))) + (n - 1))`.
Raises (`.error`) when `x` is zero (`log10(0)` is a domain error) or a
string (`abs` of a string is a `TypeError`). -/
def round_to_n (x : PyValue) (n : ℤ) : Except Unit PyValue :=
  match x with
  | .int m =>
      if m = 0 then .error () else
        .ok (.int (pyRoundInt m (-(qLog10FloorND m.natAbs 1) + (n - 1))))
  | .float q =>
      if q = 0 then .error () else
        .ok (.float (pyRoundRat q (-(qLog10FloorND q.num.natAbs q.den) + (n - 1))))
  | .str _ => .error ()

/-- Decimal digits of a natural number, most significant first. -/
def natDec (n : ℕ) : String := String.mk (Nat.toDigits 10 n)

/-- Insert a comma after every three characters of a reversed digit
list (helper for thousands grouping). -/
def group3Rev : List Char → List Char
  | a :: b :: c :: d :: rest => a :: b :: c :: ',' :: group3Rev (d :: rest)
  | l => l

/-- Decimal rendering of a natural number with thousands separators. -/
def natGrouped (n : ℕ) : String :=
  String.mk (group3Rev (Nat.toDigits 10 n).reverse).reverse

/-- Decimal rendering of an integer, with optional thousands grouping
(Python `format(m, ',')` / `format(m, '')`). -/
def intGrouped (m : ℤ) (g : Bool) : String :=
  (if m < 0 then ("-") else ("")) ++
    (if g then natGrouped m.natAbs else natDec m.natAbs)

/-- Pad a string on the left with zeros up to length `p`. -/
def padZeros (s : String) (p : ℕ) : String :=
  String.mk (List.replicate (p - s.data.length) '0' ++ s.data)

/-- Drop trailing zero characters. -/
def stripZerosRight (s : String) : String :=
  String.mk (s.data.reverse.dropWhile (fun c => c = '0')).reverse

/-- Fixed-point rendering of the float `q` with `p` digits after the
point (Python `format(q, 'f')`-family), optional thousands grouping. -/
def fixedSigned (q : ℚ) (p : ℕ) (g : Bool) : String :=
  let n := (rheND ((q.num.natAbs : ℤ) * 10 ^ p) q.den).toNat
  let ip := n / 10 ^ p
  let fp := n % 10 ^ p
  let ipStr := if g then natGrouped ip else natDec ip
  (if q.num < 0 then ("-") else ("")) ++
    (if p = 0 then ipStr else ipStr ++ (".") ++ padZeros (natDec fp) p)

/-- Exponent suffix of scientific notation, at least two digits. -/
def expStr (e : ℤ) : String :=
  (if e < 0 then ("-") else ("+")) ++ padZeros (natDec e.natAbs) 2

/-- General-format rendering of the float `q` with `p` significant
digits (Python `format(q, 'g')`-family): fixed notation when the
exponent lies in `[-4, p)`, with insignificant trailing zeros removed,
scientific notation otherwise.  `upper` selects `G`, `g` the grouping
comma. -/
def genSigned (q : ℚ) (p : ℕ) (upper : Bool) (g : Bool) : String :=
  if q.num = 0 then ("0")
  else
    let a := q.num.natAbs
    let b := q.den
    let e := qLog10FloorND a b
    let s := (p : ℤ) - 1 - e
    let m := if 0 ≤ s then rheND ((a : ℤ) * 10 ^ s.toNat) b
             else rheND (a : ℤ) (b * 10 ^ (-s).toNat)
    let m' := if m = 10 ^ p then (10 : ℤ) ^ (p - 1) else m
    let e' := if m = 10 ^ p then e + 1 else e
    let sign := if q.num < 0 then ("-") else ("")
    if -4 ≤ e' ∧ e' < (p : ℤ) then
      let fracLen := ((p : ℤ) - 1 - e').toNat
      let n := m'.toNat
      let ip := n / 10 ^ fracLen
      let fp := n % 10 ^ fracLen
      let fracStr := stripZerosRight (padZeros (natDec fp) fracLen)
      let ipStr := if g then natGrouped ip else natDec ip
      sign ++ (if fracStr.data = [] then ipStr else ipStr ++ (".") ++ fracStr)
    else
      let mant :=
        match (natDec m'.toNat).data with
        | c :: rest =>
            let rs := (rest.reverse.dropWhile (fun ch => ch = '0')).reverse
            if rs = [] then String.mk [c] else String.mk (c :: '.' :: rs)
        | [] => ("0")
      sign ++ mant ++ (if upper then ("E") else ("e")) ++ expStr e'

/-- Idealized model of Python `str`/`repr` of a float: general format at
17 significant digits.  (Python's shortest round-trip repr is not
modelled; no claim depends on the exact rendering of a float without an
explicit format type.) -/
def floatRepr (q : ℚ) : String := genSigned q 17 false false

/-- Truncate a string to its first `p` characters when a precision is
given (Python `format(s, '.p')`). -/
def truncStr (s : String) : Option ℕ → String
  | none => s
  | some p => String.mk (s.data.take p)

/-- Parse an optional leading grouping comma. -/
def parseGrouping : List Char → Bool × List Char
  | ',' :: rest => (true, rest)
  | cs => (false, cs)

/-- Numeric value of a list of decimal digit characters. -/
def digitsVal (l : List Char) : ℕ :=
  l.foldl (fun a c => 10 * a + (c.toNat - 48)) 0

/-- Parse an optional `.digits` precision field; fails on a bare dot. -/
def parsePrecision : List Char → Option (Option ℕ × List Char)
  | '.' :: rest =>
      let ds := rest.takeWhile Char.isDigit
      if ds.isEmpty then none
      else some (some (digitsVal ds), rest.drop ds.length)
  | cs => some (none, cs)

/-- Parse the optional presentation type (the modelled fragment). -/
def parseType : List Char → Option (Option Char)
  | [] => some none
  | [c] => if c ∈ ['d', 'f', 'F', 'g', 'G', 's'] then some (some c) else none
  | _ => none

/-- Parse a format specification into (grouping, precision, type);
`none` models Python's `ValueError` for specifications outside the
modelled fragment. -/
def parseSpec (s : String) : Option (Bool × Option ℕ × Option Char) := do
  let (g, cs) := parseGrouping s.data
  let (p, cs') ← parsePrecision cs
  let t ← parseType cs'
  pure (g, p, t)

/-- Model of the builtin `format(value, spec)` on the modelled fragment
of the format specification mini-language (see module comment).
Mirrors Python's validity rules: the grouping comma is rejected for
strings, precision is rejected for integer presentation, `s` is
rejected for numbers, `d` for floats. -/
def pyFormat (value : PyValue) (spec : String) : Except Unit String :=
  match parseSpec spec with
  | none => .error ()
  | some (g, p, t) =>
      match value with
      | .str s =>
          if g then .error ()
          else
            match t with
            | none => .ok (truncStr s p)
            | some c => if c = 's' then .ok (truncStr s p) else .error ()
      | .int m =>
          match t with
          | none => if p.isSome then .error () else .ok (intGrouped m g)
          | some c =>
              if c = 'd' then
                if p.isSome then .error () else .ok (intGrouped m g)
              else if c = 'f' ∨ c = 'F' then .ok (fixedSigned (mkRat m 1) (p.getD 6) g)
              else if c = 'g' ∨ c = 'G' then
                .ok (genSigned (mkRat m 1) (max (p.getD 6) 1) (c = 'G') g)
              else .error ()
      | .float q =>
          match t with
          | none =>
              match p with
              | none => .ok (if g then genSigned q 17 false true else floatRepr q)
              | some pr => .ok (genSigned q (max pr 1) false g)
          | some c =>
              if c = 'f' ∨ c = 'F' then .ok (fixedSigned q (p.getD 6) g)
              else if c = 'g' ∨ c = 'G' then
                .ok (genSigned q (max (p.getD 6) 1) (c = 'G') g)
              else .error ()

/-- The fallback `format(value, '')`: plain string conversion, which
never raises for an integer, float or string. -/
def pyFormatPlain : PyValue → String
  | .int m => intGrouped m false
  | .float q => floatRepr q
  | .str s => s

/-- Python `str(val)` as used on matrix entries in `df_to_table`. -/
def pyStr : PyValue → String := pyFormatPlain

/-- Python `int(c)` on the one-character slice `format_str[1]`:
succeeds exactly on a decimal digit; `none` is the `IndexError` of
indexing past the end. -/
def pyInt1 : Option Char → Except Unit ℤ
  | some c => if c.isDigit then .ok ((c.toNat - 48 : ℕ) : ℤ) else .error ()
  | none => .error ()

/-- Lines 31-33 of `_do_formatting`: when the specification ends with
the rounding marker and the value is integer-like, parse the digit
after the leading dot (`int(format_str[1])`), round the value to that
many significant digits and switch the specification to the grouping
comma; any other value is left untouched. -/
def roundBranch (value : PyValue) (format_str : String) :
    Except Unit (PyValue × String) :=
  match value with
  | .int m => do
      let d ← pyInt1 (format_str.data.get? 1)
      let v ← round_to_n (.int m) d
      pure (v, (("," : String)))
  | _ => pure (value, format_str)

/-- Lines 22-35 of `_do_formatting`: resolve the effective value and
format string before the final `format` call.  The empty specification
picks a per-type default; a specification starting with a dot first
applies the integer rounding branch when it ends with `R`, then appends
`G` unless the current specification already ends with it. -/
def resolveSpec (value : PyValue) (format_str : String) :
    Except Unit (PyValue × String) :=
  if format_str.data = [] then
    .ok (value,
      match value with
      | .int _ => (",")
      | .float _ => ("f")
      | .str _ => ("s"))
  else if format_str.data.head? = some '.' then
    (if format_str.data.getLast? = some 'R' then roundBranch value format_str
      else pure (value, format_str)) >>= fun vf =>
      pure (vf.1, if vf.2.data.getLast? = some 'G' then vf.2 else vf.2 ++ ("G"))
  else .ok (value, format_str)

/-- Embedding of `_do_formatting(value, format_str)` (lines 19-41).
The `try`/`except` around the final `format` call is the `match` on
`pyFormat`; exceptions raised before the `try` (inside `resolveSpec`)
propagate. -/
def _do_formatting (value : PyValue) (format_str : String) :
    Except Unit String := do
  let vf ← resolveSpec value format_str
  match pyFormat vf.1 vf.2 with
  | .ok s => pure s
  | .error _ => pure (pyFormatPlain vf.1)

/-- A python-pptx length-like argument: Python `None`, a plain integer
(interpreted by `process_position_parameter` as centimeters), or a
`pptx.util.Length` in EMU such as `Cm(x)` or `Inches(x)` (every
non-`None`, non-`int` argument is passed through unchanged; `emu`
stands for all such values). -/
inductive PPLength where
  | none
  | int (n : ℤ)
  | emu (e : ℤ)
deriving DecidableEq

/-- `pptx.util.Cm`: centimeters to EMU (360000 EMU per centimeter). -/
def Cm (n : ℤ) : PPLength := .emu (n * 360000)

/-- `pptx.util.Pt`: points to centipoints as stored on a font size. -/
def Pt (n : ℤ) : ℤ := n * 12700

/-- Embedding of `process_position_parameter` (lines 43-54): `None`
defaults to `Cm(4)`, an integer is interpreted as that many
centimeters, anything else passes through unchanged. -/
def process_position_parameter (param : PPLength) : PPLength :=
  match param with
  | .none => Cm 4
  | .int n => Cm n
  | p => p

/-- A pandas dataframe as read by `df_to_table`: its shape, the value
matrix (`df.as_matrix()`), the row labels (`df.index`) and the column
labels (`df.columns`). -/
structure DataFrame where
  nrows : ℕ
  ncols : ℕ
  values : ℕ → ℕ → PyValue
  index : List String
  columns : List String

/-- Paragraph alignment values used by the styling code. -/
inductive PPAlign where
  | center
  | left
deriving DecidableEq

/-- The cell/paragraph style attributes written by `df_to_table`. -/
structure CellStyle where
  autoSizeToFit : Bool := false
  bold : Option Bool := none
  size : Option ℤ := none
  fontName : Option String := none
  fontColor : Option (ℕ × ℕ × ℕ) := none
  align : Option PPAlign := none
  fillColor : Option (ℕ × ℕ × ℕ) := none
deriving DecidableEq

/-- A table cell: its text and its style state. -/
structure TableCell where
  text : String := ""
  style : CellStyle := {}
deriving DecidableEq

/-- A pptx graphic-frame shape holding a table: grid size, cells,
per-column width/height overrides (`none` = library default, i.e.
untouched), optional shape name and the four position parameters. -/
structure TableShape where
  nrows : ℕ
  ncols : ℕ
  cells : ℕ → ℕ → TableCell
  colWidths : ℕ → Option PPLength
  colHeights : ℕ → Option PPLength
  name : Option String
  left : PPLength
  top : PPLength
  width : PPLength
  height : PPLength

/-- A slide: the list of shapes placed on it. -/
structure Slide where
  shapes : List TableShape

/-- The mutable state visible to `df_to_table`: the slide it draws on
and the dataframe it reads. -/
structure World where
  slide : Slide
  df : DataFrame

/-- The optional arguments of `df_to_table` with their declared
defaults (`rounding` is accepted but never read by the body). -/
structure DfToTableArgs where
  left : PPLength := .none
  top : PPLength := .none
  width : PPLength := .none
  height : PPLength := .none
  colnames : Option (List String) := none
  rownames : Option (List String) := none
  col_formatters : Option (List String) := none
  rounding : Option (List ℤ) := none
  name : Option String := none
  white_backgr : Bool := false
  transposed : Bool := false
  font_size : ℤ := 14
  set_col_width : Bool := false
  col_width : List PPLength := []
  set_col_height : Bool := false
  col_height : List PPLength := []

/-- `table.cell(i, j).text = s`; out-of-range indices raise
(`IndexError` in python-pptx). -/
def TableShape.setCellText (t : TableShape) (i j : ℕ) (s : String) :
    Except Unit TableShape :=
  if i < t.nrows ∧ j < t.ncols then
    .ok { t with cells := fun a b =>
            if a = i ∧ b = j then { t.cells a b with text := s } else t.cells a b }
  else .error ()

/-- Style-attribute assignments on `table.cell(i, j)` (consecutive
attribute writes of one loop iteration are merged into one update);
out-of-range indices raise. -/
def TableShape.modifyStyle (t : TableShape) (i j : ℕ) (f : CellStyle → CellStyle) :
    Except Unit TableShape :=
  if i < t.nrows ∧ j < t.ncols then
    .ok { t with cells := fun a b =>
            if a = i ∧ b = j then { t.cells a b with style := f (t.cells a b).style }
            else t.cells a b }
  else .error ()

/-- `table.columns[i].width = w`; out-of-range raises. -/
def TableShape.setColWidth (t : TableShape) (i : ℕ) (w : PPLength) :
    Except Unit TableShape :=
  if i < t.ncols then
    .ok { t with colWidths := fun j => if j = i then some w else t.colWidths j }
  else .error ()

/-- `table.columns[i].height = h`; out-of-range raises. -/
def TableShape.setColHeight (t : TableShape) (i : ℕ) (h : PPLength) :
    Except Unit TableShape :=
  if i < t.ncols then
    .ok { t with colHeights := fun j => if j = i then some h else t.colHeights j }
  else .error ()

/-- `slide.shapes.add_table(nr, nc, left, top, width, height)`: a fresh
table with empty cells and default column widths/heights. -/
def mkTable (nr nc : ℕ) (l tp w h : PPLength) : TableShape :=
  { nrows := nr, ncols := nc, cells := fun _ _ => {},
    colWidths := fun _ => Option.none, colHeights := fun _ => Option.none,
    name := Option.none, left := l, top := tp, width := w, height := h }

/-- `if name is not None: shp.name = name`. -/
def withName (t : TableShape) : Option String → TableShape
  | some n => { t with name := some n }
  | none => t

/-- `for col_index, col_name in enumerate(colnames):
cell(0, col_index).text = col_name` (the enumerate loop is written as a
fold over the index range). -/
def writeHeaderRow (t : TableShape) (names : List String) :
    Except Unit TableShape :=
  (List.range names.length).foldlM (fun t k => t.setCellText 0 k (names.getD k (""))) t

/-- `for row_index, row_name in enumerate(rownames):
cell(row_index, 0).text = row_name`. -/
def writeHeaderCol (t : TableShape) (names : List String) :
    Except Unit TableShape :=
  (List.range names.length).foldlM (fun t k => t.setCellText k 0 (names.getD k (""))) t

/-- The per-cell text of the data loop:
`str(val)` when `col_formatters is None`, otherwise
`_do_formatting(val, col_formatters[col])` (raising `IndexError` when
the formatter list is too short). -/
def cellTextOf (cf : Option (List String)) (val : PyValue) (col : ℕ) :
    Except Unit String :=
  match cf with
  | none => .ok (pyStr val)
  | some fs =>
      match fs.get? col with
      | some f => _do_formatting val f
      | none => .error ()

/-- The data loop of the vertical (non-transposed) branch:
`cell(row+1, col).text = text` for every matrix entry. -/
def writeDataNT (t : TableShape) (df : DataFrame) (cf : Option (List String)) :
    Except Unit TableShape :=
  (List.range df.nrows).foldlM (fun t row =>
    (List.range df.ncols).foldlM (fun t col => do
      let s ← cellTextOf cf (df.values row col) col
      t.setCellText (row + 1) col s) t) t

/-- The data loop of the transposed branch:
`cell(row, col+1).text = text` for every matrix entry. -/
def writeDataT (t : TableShape) (df : DataFrame) (cf : Option (List String)) :
    Except Unit TableShape :=
  (List.range df.nrows).foldlM (fun t row =>
    (List.range df.ncols).foldlM (fun t col => do
      let s ← cellTextOf cf (df.values row col) col
      t.setCellText row (col + 1) s) t) t

/-- The per-cell formatting applied by both branches to every cell:
auto-size, non-bold Calibri at `Pt(font_size)`, black, centered. -/
def bodyStyle (fsz : ℤ) (st : CellStyle) : CellStyle :=
  { st with
    autoSizeToFit := true, bold := some false, size := some (Pt fsz),
    fontName := some ("Calibri"), fontColor := some (0, 0, 0),
    align := some PPAlign.center }

/-- The label formatting of the non-transposed branch (row 0): bold
Calibri, black, centered. -/
def labelStyleNT (fsz : ℤ) (st : CellStyle) : CellStyle :=
  { st with
    bold := some true, size := some (Pt fsz),
    fontName := some ("Calibri"), fontColor := some (0, 0, 0),
    align := some PPAlign.center }

/-- The label formatting of the transposed branch (column 0): solid
blue fill, bold Calibri, black, left-aligned. -/
def labelStyleT (fsz : ℤ) (st : CellStyle) : CellStyle :=
  { st with
    fillColor := some (79, 129, 189), bold := some true,
    size := some (Pt fsz), fontName := some ("Calibri"),
    fontColor := some (0, 0, 0), align := some PPAlign.left }

/-- The top-row fill of the transposed branch (cells `(0, j+1)`). -/
def topFillT (st : CellStyle) : CellStyle :=
  { st with fillColor := some (233, 237, 244) }

/-- The `if not white_backgr` styling block of the non-transposed
branch (lines 184-202). -/
def styleNT (t : TableShape) (rows cols : ℕ) (fsz : ℤ) :
    Except Unit TableShape := do
  let t ← (List.range (rows + 1)).foldlM (fun t i =>
    (List.range cols).foldlM (fun t j => t.modifyStyle i j (bodyStyle fsz)) t) t
  (List.range cols).foldlM (fun t j => t.modifyStyle 0 j (labelStyleNT fsz)) t

/-- The `if not white_backgr` styling block of the transposed branch
(lines 131-155). -/
def styleT (t : TableShape) (rows cols : ℕ) (fsz : ℤ) :
    Except Unit TableShape := do
  let t ← (List.range rows).foldlM (fun t i =>
    (List.range (cols + 1)).foldlM (fun t j => t.modifyStyle i j (bodyStyle fsz)) t) t
  let t ← (List.range rows).foldlM (fun t i => t.modifyStyle i 0 (labelStyleT fsz)) t
  (List.range cols).foldlM (fun t j => t.modifyStyle 0 (j + 1) topFillT) t

/-- `for i in range(len(col_width)): shp.table.columns[i].width = col_width[i]`. -/
def widthLoop (t : TableShape) (l : List PPLength) : Except Unit TableShape :=
  (List.range l.length).foldlM (fun t i => t.setColWidth i (l.getD i PPLength.none)) t

/-- `for i in range(len(col_height)): shp.table.columns[i].height = col_height[i]`. -/
def heightLoop (t : TableShape) (l : List PPLength) : Except Unit TableShape :=
  (List.range l.length).foldlM (fun t i => t.setColHeight i (l.getD i PPLength.none)) t

/-- The common tail of `df_to_table` (lines 204-210): the optional
column width and column height assignment loops. -/
def applyColSizing (t : TableShape) (args : DfToTableArgs) : Except Unit TableShape :=
  (if args.set_col_width then widthLoop t args.col_width else pure t) >>= fun t2 =>
    if args.set_col_height then heightLoop t2 args.col_height else pure t2

/-- The body of `df_to_table` acting on the shape it adds: the branch
on `transposed`, followed by the common width/height loops.  Mirrors
lines 98-210 of the source. -/
def buildShape (df : DataFrame) (args : DfToTableArgs) : Except Unit TableShape := do
  let left := process_position_parameter args.left
  let top := process_position_parameter args.top
  let width := process_position_parameter args.width
  let height := process_position_parameter args.height
  let rows := df.nrows
  let cols := df.ncols
  let shp ←
    if args.transposed then do
      let t0 := mkTable rows (cols + 1) left top width height
      let rnames := args.rownames.getD df.index
      let t1 ← writeHeaderCol t0 rnames
      let t2 ← writeDataT t1 df args.col_formatters
      let t3 := withName t2 args.name
      if args.white_backgr then pure t3 else styleT t3 rows cols args.font_size
    else do
      let t0 := mkTable (rows + 1) cols left top width height
      let cnames := args.colnames.getD df.columns
      let t1 ← writeHeaderRow t0 cnames
      let t2 ← writeDataNT t1 df args.col_formatters
      let t3 := withName t2 args.name
      if args.white_backgr then pure t3 else styleNT t3 rows cols args.font_size
  applyColSizing shp args

/-- Embedding of `df_to_table(slide, df, ...)` (lines 57-212): the
slide gains the newly built table shape (in Python the shape is added
first and then mutated through the returned handle; the net effect on
the slide is the final shape) and the shape handle is returned.  The
dataframe is part of the state and is only read. -/
def df_to_table (w : World) (args : DfToTableArgs) :
    Except Unit (World × TableShape) := do
  let shp ← buildShape w.df args
  pure ({ slide := { shapes := w.slide.shapes ++ [shp] }, df := w.df }, shp)


/-- A 2-by-2 integer dataframe with the given four entries (labels are
irrelevant when explicit column/row names are supplied). -/
def mk2x2 (a b c d : ℤ) : DataFrame :=
  { nrows := 2, ncols := 2,
    values := fun i j =>
      if i = 0 then (if j = 0 then .int a else .int b)
      else (if j = 0 then .int c else .int d),
    index := [("r1"), ("r2")], columns := [("c1"), ("c2")] }

/-- A 1-by-1 integer dataframe used for concrete instantiations. -/
def exDf11 : DataFrame :=
  { nrows := 1, ncols := 1, values := fun _ _ => .int 7,
    index := [("r")], columns := [("c")] }

/-- An empty slide. -/
def exSlide : Slide := { shapes := [] }

/-- A world holding an empty slide and the 1-by-1 dataframe. -/
def exWorld11 : World := { slide := exSlide, df := exDf11 }

/-- A world holding an empty slide and a concrete 2-by-2 dataframe. -/
def exWorld22 : World := { slide := exSlide, df := mk2x2 1234 5 6 7 }

/-- Arguments supplying explicit column and row names. -/
def exArgs22 : DfToTableArgs :=
  { colnames := some [("a"), ("b")], rownames := some [("r1"), ("r2")] }

/-- Arguments requesting a column width override for the first column. -/
def exArgsW : DfToTableArgs :=
  { set_col_width := true, col_width := [PPLength.emu 100],
    set_col_height := true, col_height := [] }

/-- Grid dimensions agree. -/
def dimsEq (t t' : TableShape) : Prop :=
  t'.nrows = t.nrows ∧ t'.ncols = t.ncols

/-- Shape name and the four position parameters agree. -/
def posEq (t t' : TableShape) : Prop :=
  t'.name = t.name ∧ t'.left = t.left ∧ t'.top = t.top ∧
  t'.width = t.width ∧ t'.height = t.height

/-- Every cell text agrees. -/
def textsEq (t t' : TableShape) : Prop :=
  ∀ i j, (t'.cells i j).text = (t.cells i j).text

/-- Column width overrides agree. -/
def widthsEq (t t' : TableShape) : Prop :=
  ∀ i, t'.colWidths i = t.colWidths i

/-- Column height overrides agree. -/
def heightsEq (t t' : TableShape) : Prop :=
  ∀ i, t'.colHeights i = t.colHeights i

/-- Everything except cell texts and cell styles agrees. -/
def sameMeta (t t' : TableShape) : Prop :=
  dimsEq t t' ∧ posEq t t' ∧ widthsEq t t' ∧ heightsEq t t'

/-- Everything except cell styles agrees. -/
def sameCore (t t' : TableShape) : Prop :=
  sameMeta t t' ∧ textsEq t t'

theorem sameMeta_refl (t : TableShape) : sameMeta t t :=
  ⟨⟨rfl, rfl⟩, ⟨rfl, rfl, rfl, rfl, rfl⟩, fun _ => rfl, fun _ => rfl⟩

theorem sameMeta_trans {t t' t'' : TableShape} (h : sameMeta t t')
    (h' : sameMeta t' t'') : sameMeta t t'' := by
  obtain ⟨⟨d1, d2⟩, ⟨p1, p2, p3, p4, p5⟩, w, hh⟩ := h
  obtain ⟨⟨d1', d2'⟩, ⟨p1', p2', p3', p4', p5'⟩, w', hh'⟩ := h'
  exact ⟨⟨d1'.trans d1, d2'.trans d2⟩,
    ⟨p1'.trans p1, p2'.trans p2, p3'.trans p3, p4'.trans p4, p5'.trans p5⟩,
    fun i => (w' i).trans (w i), fun i => (hh' i).trans (hh i)⟩

theorem sameCore_refl (t : TableShape) : sameCore t t :=
  ⟨sameMeta_refl t, fun _ _ => rfl⟩

theorem sameCore_trans {t t' t'' : TableShape} (h : sameCore t t')
    (h' : sameCore t' t'') : sameCore t t'' :=
  ⟨sameMeta_trans h.1 h'.1, fun i j => (h'.2 i j).trans (h.2 i j)⟩

/-- Invariant lemma for `foldlM` over `Except Unit`: if every step
succeeds and preserves `P`, the whole fold succeeds and preserves `P`. -/
theorem exceptFoldlM_inv {α β : Type} (P : β → Prop) (f : β → α → Except Unit β)
    (l : List α) (b : β) (hb : P b)
    (hf : ∀ b' a, a ∈ l → P b' → ∃ b'', f b' a = .ok b'' ∧ P b'') :
    ∃ b', l.foldlM f b = .ok b' ∧ P b' := by
  induction l generalizing b with
  | nil => exact ⟨b, rfl, hb⟩
  | cons a tl ih =>
      obtain ⟨b1, hfa, hb1⟩ := hf b a (List.mem_cons_self a tl) hb
      obtain ⟨b2, hfold, hP⟩ :=
        ih b1 hb1 (fun b' a' ha' hP' => hf b' a' (List.mem_cons_of_mem a ha') hP')
      refine ⟨b2, ?_, hP⟩
      rw [List.foldlM_cons, hfa]
      exact hfold

/-- Position-indexed invariant lemma for `foldlM` over `List.range`. -/
theorem exceptRangeFoldlM_inv {β : Type} (P : ℕ → β → Prop)
    (f : β → ℕ → Except Unit β) (n : ℕ) (b : β) (hb : P 0 b)
    (hf : ∀ k b', k < n → P k b' → ∃ b'', f b' k = .ok b'' ∧ P (k + 1) b'') :
    ∃ b', (List.range n).foldlM f b = .ok b' ∧ P n b' := by
  induction n with
  | zero => exact ⟨b, rfl, hb⟩
  | succ m ih =>
      obtain ⟨b1, h1, hP1⟩ := ih (fun k b' hk hP => hf k b' (Nat.lt_succ_of_lt hk) hP)
      obtain ⟨b2, h2, hP2⟩ := hf m b1 (Nat.lt_succ_self m) hP1
      refine ⟨b2, ?_, hP2⟩
      rw [List.range_succ, List.foldlM_append, h1]
      show List.foldlM f b1 [m] = _
      rw [List.foldlM_cons, h2]
      rfl

theorem setCellText_spec (t : TableShape) (i j : ℕ) (s : String)
    (hi : i < t.nrows) (hj : j < t.ncols) :
    ∃ t', t.setCellText i j s = .ok t' ∧ sameMeta t t' ∧
      (t'.cells i j).text = s ∧
      (∀ a b, ¬(a = i ∧ b = j) → (t'.cells a b).text = (t.cells a b).text) := by
  rw [TableShape.setCellText, if_pos ⟨hi, hj⟩]
  refine ⟨_, rfl, ⟨⟨rfl, rfl⟩, ⟨rfl, rfl, rfl, rfl, rfl⟩, fun _ => rfl, fun _ => rfl⟩, ?_, ?_⟩
  · simp
  · intro a b hab
    simp [hab]

theorem modifyStyle_sameCore (t : TableShape) (i j : ℕ) (f : CellStyle → CellStyle)
    (hi : i < t.nrows) (hj : j < t.ncols) :
    ∃ t', t.modifyStyle i j f = .ok t' ∧ sameCore t t' := by
  rw [TableShape.modifyStyle, if_pos ⟨hi, hj⟩]
  refine ⟨_, rfl, ⟨⟨rfl, rfl⟩, ⟨rfl, rfl, rfl, rfl, rfl⟩, fun _ => rfl, fun _ => rfl⟩, ?_⟩
  intro a b
  by_cases h : a = i ∧ b = j
  · simp [h]
  · simp [h]

theorem setColWidth_spec (t : TableShape) (i : ℕ) (w : PPLength) (hi : i < t.ncols) :
    ∃ t', t.setColWidth i w = .ok t' ∧ dimsEq t t' ∧ posEq t t' ∧
      (∀ a b, t'.cells a b = t.cells a b) ∧ heightsEq t t' ∧
      (∀ j, t'.colWidths j = if j = i then some w else t.colWidths j) := by
  rw [TableShape.setColWidth, if_pos hi]
  exact ⟨_, rfl, ⟨rfl, rfl⟩, ⟨rfl, rfl, rfl, rfl, rfl⟩, fun _ _ => rfl,
    fun _ => rfl, fun _ => rfl⟩

theorem setColHeight_spec (t : TableShape) (i : ℕ) (h : PPLength) (hi : i < t.ncols) :
    ∃ t', t.setColHeight i h = .ok t' ∧ dimsEq t t' ∧ posEq t t' ∧
      (∀ a b, t'.cells a b = t.cells a b) ∧ widthsEq t t' ∧
      (∀ j, t'.colHeights j = if j = i then some h else t.colHeights j) := by
  rw [TableShape.setColHeight, if_pos hi]
  exact ⟨_, rfl, ⟨rfl, rfl⟩, ⟨rfl, rfl, rfl, rfl, rfl⟩, fun _ _ => rfl,
    fun _ => rfl, fun _ => rfl⟩

theorem ok_bind {α β : Type} (a : α) (g : α → Except Unit β) :
    (Except.ok a >>= g : Except Unit β) = g a := rfl

theorem modifyStyle_step (t : TableShape) (i j : ℕ) (g : CellStyle → CellStyle)
    (hi : i < t.nrows) (hj : j < t.ncols) :
    ∀ t1, sameCore t t1 → ∃ t2, t1.modifyStyle i j g = .ok t2 ∧ sameCore t t2 := by
  intro t1 hs
  obtain ⟨t2, h2, hs2⟩ := modifyStyle_sameCore t1 i j g
    (by rw [hs.1.1.1]; exact hi) (by rw [hs.1.1.2]; exact hj)
  exact ⟨t2, h2, sameCore_trans hs hs2⟩

theorem styleNT_sameCore (t : TableShape) (rows cols : ℕ) (fsz : ℤ)
    (hr : rows + 1 ≤ t.nrows) (hc : cols ≤ t.ncols) :
    ∃ t', styleNT t rows cols fsz = .ok t' ∧ sameCore t t' := by
  rw [styleNT]
  have hbody : ∀ k t1, k < rows + 1 → sameCore t t1 →
      ∃ t2, (List.range cols).foldlM
          (fun t j => t.modifyStyle k j (bodyStyle fsz)) t1 = .ok t2 ∧ sameCore t t2 := by
    intro k t1 hk hs
    exact exceptFoldlM_inv (sameCore t) _ (List.range cols) t1 hs
      (fun t' j hj hs' =>
        modifyStyle_step t k j (bodyStyle fsz) (lt_of_lt_of_le hk hr)
          (lt_of_lt_of_le (List.mem_range.mp hj) hc) t' hs')
  obtain ⟨t1, h1, hs1⟩ :=
    exceptFoldlM_inv (sameCore t)
      (fun t i => (List.range cols).foldlM (fun t j => t.modifyStyle i j (bodyStyle fsz)) t)
      (List.range (rows + 1)) t (sameCore_refl t)
      (fun t' i hi hs' => hbody i t' (List.mem_range.mp hi) hs')
  obtain ⟨t2, h2, hs2⟩ :=
    exceptFoldlM_inv (sameCore t)
      (fun t j => t.modifyStyle 0 j (labelStyleNT fsz))
      (List.range cols) t1 hs1
      (fun t' j hj hs' =>
        modifyStyle_step t 0 j (labelStyleNT fsz) (Nat.lt_of_lt_of_le (Nat.succ_pos rows) hr)
          (lt_of_lt_of_le (List.mem_range.mp hj) hc) t' hs')
  refine ⟨t2, ?_, hs2⟩
  rw [h1]
  exact h2

theorem styleT_sameCore (t : TableShape) (rows cols : ℕ) (fsz : ℤ)
    (hr : rows ≤ t.nrows) (hc : cols + 1 ≤ t.ncols) (h0 : 0 < t.nrows) :
    ∃ t', styleT t rows cols fsz = .ok t' ∧ sameCore t t' := by
  rw [styleT]
  have hbody : ∀ k t1, k < rows → sameCore t t1 →
      ∃ t2, (List.range (cols + 1)).foldlM
          (fun t j => t.modifyStyle k j (bodyStyle fsz)) t1 = .ok t2 ∧ sameCore t t2 := by
    intro k t1 hk hs
    exact exceptFoldlM_inv (sameCore t) _ (List.range (cols + 1)) t1 hs
      (fun t' j hj hs' =>
        modifyStyle_step t k j (bodyStyle fsz) (lt_of_lt_of_le hk hr)
          (lt_of_lt_of_le (List.mem_range.mp hj) hc) t' hs')
  obtain ⟨t1, h1, hs1⟩ :=
    exceptFoldlM_inv (sameCore t)
      (fun t i => (List.range (cols + 1)).foldlM (fun t j => t.modifyStyle i j (bodyStyle fsz)) t)
      (List.range rows) t (sameCore_refl t)
      (fun t' i hi hs' => hbody i t' (List.mem_range.mp hi) hs')
  obtain ⟨t2, h2, hs2⟩ :=
    exceptFoldlM_inv (sameCore t)
      (fun t i => t.modifyStyle i 0 (labelStyleT fsz))
      (List.range rows) t1 hs1
      (fun t' i hi hs' =>
        modifyStyle_step t i 0 (labelStyleT fsz)
          (lt_of_lt_of_le (List.mem_range.mp hi) hr)
          (Nat.lt_of_lt_of_le (Nat.succ_pos cols) hc) t' hs')
  obtain ⟨t3, h3, hs3⟩ :=
    exceptFoldlM_inv (sameCore t)
      (fun t j => t.modifyStyle 0 (j + 1) topFillT)
      (List.range cols) t2 hs2
      (fun t' j hj hs' =>
        modifyStyle_step t 0 (j + 1) topFillT h0
          (Nat.lt_of_lt_of_le (Nat.succ_lt_succ (List.mem_range.mp hj)) hc) t' hs')
  refine ⟨t3, ?_, hs3⟩
  simp only [h1, ok_bind, h2, h3]

theorem writeHeaderRow_spec (t : TableShape) (names : List String)
    (h0 : 0 < t.nrows) (hn : names.length ≤ t.ncols) :
    ∃ t', writeHeaderRow t names = .ok t' ∧ sameMeta t t' ∧
      (∀ i j, i ≠ 0 ∨ names.length ≤ j → (t'.cells i j).text = (t.cells i j).text) ∧
      (∀ j, j < names.length → (t'.cells 0 j).text = names.getD j ("")) := by
  rw [writeHeaderRow]
  have hstep : ∀ k t1, k < names.length →
      (sameMeta t t1 ∧
        (∀ i j, i ≠ 0 ∨ k ≤ j → (t1.cells i j).text = (t.cells i j).text) ∧
        (∀ j, j < k → (t1.cells 0 j).text = names.getD j (""))) →
      ∃ t2, t1.setCellText 0 k (names.getD k ("")) = .ok t2 ∧
        (sameMeta t t2 ∧
          (∀ i j, i ≠ 0 ∨ k + 1 ≤ j → (t2.cells i j).text = (t.cells i j).text) ∧
          (∀ j, j < k + 1 → (t2.cells 0 j).text = names.getD j (""))) := by
    intro k t1 hk ⟨hm, hpres, hdone⟩
    obtain ⟨t2, h2, hm2, htext, hother⟩ := setCellText_spec t1 0 k (names.getD k (""))
      (by rw [hm.1.1]; exact h0) (by rw [hm.1.2]; exact lt_of_lt_of_le hk hn)
    refine ⟨t2, h2, sameMeta_trans hm hm2, ?_, ?_⟩
    · intro i j hij
      have hne : ¬(i = 0 ∧ j = k) := by
        rintro ⟨rfl, rfl⟩
        rcases hij with h | h
        · exact h rfl
        · omega
      rw [hother i j hne]
      refine hpres i j ?_
      rcases hij with h | h
      · exact Or.inl h
      · exact Or.inr (by omega)
    · intro j hj
      rcases Nat.lt_succ_iff_lt_or_eq.mp hj with h | rfl
      · rw [hother 0 j (by rintro ⟨-, rfl⟩; omega)]
        exact hdone j h
      · exact htext
  obtain ⟨t', h', hP⟩ :=
    exceptRangeFoldlM_inv
      (fun k t' => sameMeta t t' ∧
        (∀ i j, i ≠ 0 ∨ k ≤ j → (t'.cells i j).text = (t.cells i j).text) ∧
        (∀ j, j < k → (t'.cells 0 j).text = names.getD j ("")))
      (fun tt k => tt.setCellText 0 k (names.getD k ("")))
      names.length t
      ⟨sameMeta_refl t, fun _ _ _ => rfl, fun j hj => absurd hj (Nat.not_lt_zero j)⟩
      hstep
  exact ⟨t', h', hP.1, hP.2.1, hP.2.2⟩

theorem writeHeaderCol_spec (t : TableShape) (names : List String)
    (h0 : 0 < t.ncols) (hn : names.length ≤ t.nrows) :
    ∃ t', writeHeaderCol t names = .ok t' ∧ sameMeta t t' ∧
      (∀ i j, names.length ≤ i ∨ j ≠ 0 → (t'.cells i j).text = (t.cells i j).text) ∧
      (∀ i, i < names.length → (t'.cells i 0).text = names.getD i ("")) := by
  rw [writeHeaderCol]
  have hstep : ∀ k t1, k < names.length →
      (sameMeta t t1 ∧
        (∀ i j, k ≤ i ∨ j ≠ 0 → (t1.cells i j).text = (t.cells i j).text) ∧
        (∀ i, i < k → (t1.cells i 0).text = names.getD i (""))) →
      ∃ t2, t1.setCellText k 0 (names.getD k ("")) = .ok t2 ∧
        (sameMeta t t2 ∧
          (∀ i j, k + 1 ≤ i ∨ j ≠ 0 → (t2.cells i j).text = (t.cells i j).text) ∧
          (∀ i, i < k + 1 → (t2.cells i 0).text = names.getD i (""))) := by
    intro k t1 hk ⟨hm, hpres, hdone⟩
    obtain ⟨t2, h2, hm2, htext, hother⟩ := setCellText_spec t1 k 0 (names.getD k (""))
      (by rw [hm.1.1]; exact lt_of_lt_of_le hk hn) (by rw [hm.1.2]; exact h0)
    refine ⟨t2, h2, sameMeta_trans hm hm2, ?_, ?_⟩
    · intro i j hij
      have hne : ¬(i = k ∧ j = 0) := by
        rintro ⟨rfl, rfl⟩
        rcases hij with h | h
        · omega
        · exact h rfl
      rw [hother i j hne]
      refine hpres i j ?_
      rcases hij with h | h
      · exact Or.inl (by omega)
      · exact Or.inr h
    · intro i hi
      rcases Nat.lt_succ_iff_lt_or_eq.mp hi with h | rfl
      · rw [hother i 0 (by rintro ⟨rfl, -⟩; omega)]
        exact hdone i h
      · exact htext
  obtain ⟨t', h', hP⟩ :=
    exceptRangeFoldlM_inv
      (fun k t' => sameMeta t t' ∧
        (∀ i j, k ≤ i ∨ j ≠ 0 → (t'.cells i j).text = (t.cells i j).text) ∧
        (∀ i, i < k → (t'.cells i 0).text = names.getD i ("")))
      (fun tt k => tt.setCellText k 0 (names.getD k ("")))
      names.length t
      ⟨sameMeta_refl t, fun _ _ _ => rfl, fun i hi => absurd hi (Nat.not_lt_zero i)⟩
      hstep
  exact ⟨t', h', hP.1, hP.2.1, hP.2.2⟩

theorem dimsEq_trans {t t' t'' : TableShape} (h : dimsEq t t') (h' : dimsEq t' t'') :
    dimsEq t t'' := ⟨h'.1.trans h.1, h'.2.trans h.2⟩

theorem posEq_trans {t t' t'' : TableShape} (h : posEq t t') (h' : posEq t' t'') :
    posEq t t'' :=
  ⟨h'.1.trans h.1, h'.2.1.trans h.2.1, h'.2.2.1.trans h.2.2.1,
    h'.2.2.2.1.trans h.2.2.2.1, h'.2.2.2.2.trans h.2.2.2.2⟩

theorem writeDataNT_spec (t : TableShape) (df : DataFrame)
    (hr : df.nrows + 1 ≤ t.nrows) (hc : df.ncols ≤ t.ncols) :
    ∃ t', writeDataNT t df Option.none = .ok t' ∧ sameMeta t t' ∧
      (∀ i j, i = 0 ∨ df.nrows + 1 ≤ i ∨ df.ncols ≤ j →
        (t'.cells i j).text = (t.cells i j).text) ∧
      (∀ r c, r < df.nrows → c < df.ncols →
        (t'.cells (r + 1) c).text = pyStr (df.values r c)) := by
  rw [writeDataNT]
  have hstep : ∀ k t1, k < df.nrows →
      (sameMeta t t1 ∧
        (∀ i j, ¬(1 ≤ i ∧ i < k + 1 ∧ j < df.ncols) →
          (t1.cells i j).text = (t.cells i j).text) ∧
        (∀ r c, r < k → c < df.ncols →
          (t1.cells (r + 1) c).text = pyStr (df.values r c))) →
      ∃ t2, (List.range df.ncols).foldlM
          (fun tt col => tt.setCellText (k + 1) col (pyStr (df.values k col))) t1 = .ok t2 ∧
        (sameMeta t t2 ∧
          (∀ i j, ¬(1 ≤ i ∧ i < k + 2 ∧ j < df.ncols) →
            (t2.cells i j).text = (t.cells i j).text) ∧
          (∀ r c, r < k + 1 → c < df.ncols →
            (t2.cells (r + 1) c).text = pyStr (df.values r c))) := by
    intro k t1 hk ⟨hm1, hpres1, hdone1⟩
    have hinner : ∀ c t2, c < df.ncols →
        (sameMeta t t2 ∧
          (∀ i j, ¬(i = k + 1 ∧ j < c) → (t2.cells i j).text = (t1.cells i j).text) ∧
          (∀ cc, cc < c → (t2.cells (k + 1) cc).text = pyStr (df.values k cc))) →
        ∃ t3, t2.setCellText (k + 1) c (pyStr (df.values k c)) = .ok t3 ∧
          (sameMeta t t3 ∧
            (∀ i j, ¬(i = k + 1 ∧ j < c + 1) → (t3.cells i j).text = (t1.cells i j).text) ∧
            (∀ cc, cc < c + 1 → (t3.cells (k + 1) cc).text = pyStr (df.values k cc))) := by
      intro c t2 hcc ⟨hm2, hpres2, hdone2⟩
      obtain ⟨t3, h3, hm3, htext, hother⟩ := setCellText_spec t2 (k + 1) c (pyStr (df.values k c))
        (by rw [hm2.1.1]; omega) (by rw [hm2.1.2]; omega)
      refine ⟨t3, h3, sameMeta_trans hm2 hm3, ?_, ?_⟩
      · intro i j hij
        rw [hother i j (by omega), hpres2 i j (by omega)]
      · intro cc hcc'
        rcases Nat.lt_succ_iff_lt_or_eq.mp hcc' with h | rfl
        · rw [hother (k + 1) cc (by omega)]
          exact hdone2 cc h
        · exact htext
    obtain ⟨t2, h2, hm2, hpres2, hdone2⟩ :=
      exceptRangeFoldlM_inv
        (fun c t2 => sameMeta t t2 ∧
          (∀ i j, ¬(i = k + 1 ∧ j < c) → (t2.cells i j).text = (t1.cells i j).text) ∧
          (∀ cc, cc < c → (t2.cells (k + 1) cc).text = pyStr (df.values k cc)))
        (fun tt col => tt.setCellText (k + 1) col (pyStr (df.values k col)))
        df.ncols t1
        ⟨hm1, fun _ _ _ => rfl, fun cc hcc => absurd hcc (Nat.not_lt_zero cc)⟩
        hinner
    refine ⟨t2, h2, hm2, ?_, ?_⟩
    · intro i j hij
      rw [hpres2 i j (by omega), hpres1 i j (by omega)]
    · intro r c hrc hcc
      rcases Nat.lt_succ_iff_lt_or_eq.mp hrc with h | rfl
      · rw [hpres2 (r + 1) c (by omega)]
        exact hdone1 r c h hcc
      · exact hdone2 c hcc
  obtain ⟨t', h', hm, hpres, hdone⟩ :=
    exceptRangeFoldlM_inv
      (fun k t1 => sameMeta t t1 ∧
        (∀ i j, ¬(1 ≤ i ∧ i < k + 1 ∧ j < df.ncols) →
          (t1.cells i j).text = (t.cells i j).text) ∧
        (∀ r c, r < k → c < df.ncols → (t1.cells (r + 1) c).text = pyStr (df.values r c)))
      (fun tt row => (List.range df.ncols).foldlM
        (fun tt2 col => tt2.setCellText (row + 1) col (pyStr (df.values row col))) tt)
      df.nrows t
      ⟨sameMeta_refl t, fun _ _ _ => rfl, fun r _ hr' _ => absurd hr' (Nat.not_lt_zero r)⟩
      hstep
  exact ⟨t', h', hm, fun i j hij => hpres i j (by omega), hdone⟩

theorem writeDataT_spec (t : TableShape) (df : DataFrame)
    (hr : df.nrows ≤ t.nrows) (hc : df.ncols + 1 ≤ t.ncols) :
    ∃ t', writeDataT t df Option.none = .ok t' ∧ sameMeta t t' ∧
      (∀ i j, df.nrows ≤ i ∨ j = 0 ∨ df.ncols + 1 ≤ j →
        (t'.cells i j).text = (t.cells i j).text) ∧
      (∀ r c, r < df.nrows → c < df.ncols →
        (t'.cells r (c + 1)).text = pyStr (df.values r c)) := by
  rw [writeDataT]
  have hstep : ∀ k t1, k < df.nrows →
      (sameMeta t t1 ∧
        (∀ i j, ¬(i < k ∧ 1 ≤ j ∧ j < df.ncols + 1) →
          (t1.cells i j).text = (t.cells i j).text) ∧
        (∀ r c, r < k → c < df.ncols →
          (t1.cells r (c + 1)).text = pyStr (df.values r c))) →
      ∃ t2, (List.range df.ncols).foldlM
          (fun tt col => tt.setCellText k (col + 1) (pyStr (df.values k col))) t1 = .ok t2 ∧
        (sameMeta t t2 ∧
          (∀ i j, ¬(i < k + 1 ∧ 1 ≤ j ∧ j < df.ncols + 1) →
            (t2.cells i j).text = (t.cells i j).text) ∧
          (∀ r c, r < k + 1 → c < df.ncols →
            (t2.cells r (c + 1)).text = pyStr (df.values r c))) := by
    intro k t1 hk ⟨hm1, hpres1, hdone1⟩
    have hinner : ∀ c t2, c < df.ncols →
        (sameMeta t t2 ∧
          (∀ i j, ¬(i = k ∧ 1 ≤ j ∧ j < c + 1) → (t2.cells i j).text = (t1.cells i j).text) ∧
          (∀ cc, cc < c → (t2.cells k (cc + 1)).text = pyStr (df.values k cc))) →
        ∃ t3, t2.setCellText k (c + 1) (pyStr (df.values k c)) = .ok t3 ∧
          (sameMeta t t3 ∧
            (∀ i j, ¬(i = k ∧ 1 ≤ j ∧ j < c + 2) → (t3.cells i j).text = (t1.cells i j).text) ∧
            (∀ cc, cc < c + 1 → (t3.cells k (cc + 1)).text = pyStr (df.values k cc))) := by
      intro c t2 hcc ⟨hm2, hpres2, hdone2⟩
      obtain ⟨t3, h3, hm3, htext, hother⟩ := setCellText_spec t2 k (c + 1) (pyStr (df.values k c))
        (by rw [hm2.1.1]; omega) (by rw [hm2.1.2]; omega)
      refine ⟨t3, h3, sameMeta_trans hm2 hm3, ?_, ?_⟩
      · intro i j hij
        rw [hother i j (by omega), hpres2 i j (by omega)]
      · intro cc hcc'
        rcases Nat.lt_succ_iff_lt_or_eq.mp hcc' with h | rfl
        · rw [hother k (cc + 1) (by omega)]
          exact hdone2 cc h
        · exact htext
    obtain ⟨t2, h2, hm2, hpres2, hdone2⟩ :=
      exceptRangeFoldlM_inv
        (fun c t2 => sameMeta t t2 ∧
          (∀ i j, ¬(i = k ∧ 1 ≤ j ∧ j < c + 1) → (t2.cells i j).text = (t1.cells i j).text) ∧
          (∀ cc, cc < c → (t2.cells k (cc + 1)).text = pyStr (df.values k cc)))
        (fun tt col => tt.setCellText k (col + 1) (pyStr (df.values k col)))
        df.ncols t1
        ⟨hm1, fun _ _ _ => rfl, fun cc hcc => absurd hcc (Nat.not_lt_zero cc)⟩
        hinner
    refine ⟨t2, h2, hm2, ?_, ?_⟩
    · intro i j hij
      rw [hpres2 i j (by omega), hpres1 i j (by omega)]
    · intro r c hrc hcc
      rcases Nat.lt_succ_iff_lt_or_eq.mp hrc with h | rfl
      · rw [hpres2 r (c + 1) (by omega)]
        exact hdone1 r c h hcc
      · exact hdone2 c hcc
  obtain ⟨t', h', hm, hpres, hdone⟩ :=
    exceptRangeFoldlM_inv
      (fun k t1 => sameMeta t t1 ∧
        (∀ i j, ¬(i < k ∧ 1 ≤ j ∧ j < df.ncols + 1) →
          (t1.cells i j).text = (t.cells i j).text) ∧
        (∀ r c, r < k → c < df.ncols → (t1.cells r (c + 1)).text = pyStr (df.values r c)))
      (fun tt row => (List.range df.ncols).foldlM
        (fun tt2 col => tt2.setCellText row (col + 1) (pyStr (df.values row col))) tt)
      df.nrows t
      ⟨sameMeta_refl t, fun _ _ _ => rfl, fun r _ hr' _ => absurd hr' (Nat.not_lt_zero r)⟩
      hstep
  exact ⟨t', h', hm, fun i j hij => hpres i j (by omega), hdone⟩

theorem widthLoop_spec (t : TableShape) (l : List PPLength) (hl : l.length ≤ t.ncols) :
    ∃ t', widthLoop t l = .ok t' ∧ dimsEq t t' ∧ posEq t t' ∧
      (∀ a b, t'.cells a b = t.cells a b) ∧ heightsEq t t' ∧
      (∀ i, t'.colWidths i =
        if i < l.length then some (l.getD i PPLength.none) else t.colWidths i) := by
  rw [widthLoop]
  have hstep : ∀ k t1, k < l.length →
      (dimsEq t t1 ∧ posEq t t1 ∧ (∀ a b, t1.cells a b = t.cells a b) ∧ heightsEq t t1 ∧
        (∀ i, t1.colWidths i =
          if i < k then some (l.getD i PPLength.none) else t.colWidths i)) →
      ∃ t2, t1.setColWidth k (l.getD k PPLength.none) = .ok t2 ∧
        (dimsEq t t2 ∧ posEq t t2 ∧ (∀ a b, t2.cells a b = t.cells a b) ∧ heightsEq t t2 ∧
          (∀ i, t2.colWidths i =
            if i < k + 1 then some (l.getD i PPLength.none) else t.colWidths i)) := by
    intro k t1 hk ⟨hd, hp, hcells, hh, hws⟩
    obtain ⟨t2, h2, hd2, hp2, hcells2, hh2, hw2⟩ :=
      setColWidth_spec t1 k (l.getD k PPLength.none) (by rw [hd.2]; omega)
    refine ⟨t2, h2, dimsEq_trans hd hd2, posEq_trans hp hp2,
      fun a b => (hcells2 a b).trans (hcells a b), fun i => (hh2 i).trans (hh i), ?_⟩
    intro i
    rw [hw2 i]
    by_cases hik : i = k
    · subst hik
      rw [if_pos rfl, if_pos (Nat.lt_succ_self i)]
    · rw [if_neg hik, hws i]
      by_cases hlt : i < k
      · rw [if_pos hlt, if_pos (by omega)]
      · rw [if_neg hlt, if_neg (by omega)]
  obtain ⟨t', h', hP⟩ :=
    exceptRangeFoldlM_inv
      (fun k t1 => dimsEq t t1 ∧ posEq t t1 ∧ (∀ a b, t1.cells a b = t.cells a b) ∧
        heightsEq t t1 ∧
        (∀ i, t1.colWidths i =
          if i < k then some (l.getD i PPLength.none) else t.colWidths i))
      (fun tt k => tt.setColWidth k (l.getD k PPLength.none))
      l.length t
      ⟨⟨rfl, rfl⟩, ⟨rfl, rfl, rfl, rfl, rfl⟩, fun _ _ => rfl, fun _ => rfl,
        fun i => by rw [if_neg (Nat.not_lt_zero i)]⟩
      hstep
  exact ⟨t', h', hP.1, hP.2.1, hP.2.2.1, hP.2.2.2.1, hP.2.2.2.2⟩

theorem heightLoop_spec (t : TableShape) (l : List PPLength) (hl : l.length ≤ t.ncols) :
    ∃ t', heightLoop t l = .ok t' ∧ dimsEq t t' ∧ posEq t t' ∧
      (∀ a b, t'.cells a b = t.cells a b) ∧ widthsEq t t' ∧
      (∀ i, t'.colHeights i =
        if i < l.length then some (l.getD i PPLength.none) else t.colHeights i) := by
  rw [heightLoop]
  have hstep : ∀ k t1, k < l.length →
      (dimsEq t t1 ∧ posEq t t1 ∧ (∀ a b, t1.cells a b = t.cells a b) ∧ widthsEq t t1 ∧
        (∀ i, t1.colHeights i =
          if i < k then some (l.getD i PPLength.none) else t.colHeights i)) →
      ∃ t2, t1.setColHeight k (l.getD k PPLength.none) = .ok t2 ∧
        (dimsEq t t2 ∧ posEq t t2 ∧ (∀ a b, t2.cells a b = t.cells a b) ∧ widthsEq t t2 ∧
          (∀ i, t2.colHeights i =
            if i < k + 1 then some (l.getD i PPLength.none) else t.colHeights i)) := by
    intro k t1 hk ⟨hd, hp, hcells, hw, hhs⟩
    obtain ⟨t2, h2, hd2, hp2, hcells2, hw2, hh2⟩ :=
      setColHeight_spec t1 k (l.getD k PPLength.none) (by rw [hd.2]; omega)
    refine ⟨t2, h2, dimsEq_trans hd hd2, posEq_trans hp hp2,
      fun a b => (hcells2 a b).trans (hcells a b), fun i => (hw2 i).trans (hw i), ?_⟩
    intro i
    rw [hh2 i]
    by_cases hik : i = k
    · subst hik
      rw [if_pos rfl, if_pos (Nat.lt_succ_self i)]
    · rw [if_neg hik, hhs i]
      by_cases hlt : i < k
      · rw [if_pos hlt, if_pos (by omega)]
      · rw [if_neg hlt, if_neg (by omega)]
  obtain ⟨t', h', hP⟩ :=
    exceptRangeFoldlM_inv
      (fun k t1 => dimsEq t t1 ∧ posEq t t1 ∧ (∀ a b, t1.cells a b = t.cells a b) ∧
        widthsEq t t1 ∧
        (∀ i, t1.colHeights i =
          if i < k then some (l.getD i PPLength.none) else t.colHeights i))
      (fun tt k => tt.setColHeight k (l.getD k PPLength.none))
      l.length t
      ⟨⟨rfl, rfl⟩, ⟨rfl, rfl, rfl, rfl, rfl⟩, fun _ _ => rfl, fun _ => rfl,
        fun i => by rw [if_neg (Nat.not_lt_zero i)]⟩
      hstep
  exact ⟨t', h', hP.1, hP.2.1, hP.2.2.1, hP.2.2.2.1, hP.2.2.2.2⟩

theorem withName_spec (t : TableShape) (o : Option String) (h : t.name = Option.none) :
    (withName t o).nrows = t.nrows ∧ (withName t o).ncols = t.ncols ∧
    (withName t o).cells = t.cells ∧ (withName t o).colWidths = t.colWidths ∧
    (withName t o).colHeights = t.colHeights ∧ (withName t o).left = t.left ∧
    (withName t o).top = t.top ∧ (withName t o).width = t.width ∧
    (withName t o).height = t.height ∧ (withName t o).name = o := by
  cases o with
  | none => exact ⟨rfl, rfl, rfl, rfl, rfl, rfl, rfl, rfl, rfl, h⟩
  | some n => exact ⟨rfl, rfl, rfl, rfl, rfl, rfl, rfl, rfl, rfl, rfl⟩


theorem applyColSizing_spec (t : TableShape) (args : DfToTableArgs)
    (hwlen : args.set_col_width = true → args.col_width.length ≤ t.ncols)
    (hhlen : args.set_col_height = true → args.col_height.length ≤ t.ncols) :
    ∃ t', applyColSizing t args = .ok t' ∧ dimsEq t t' ∧ posEq t t' ∧
      (∀ a b, t'.cells a b = t.cells a b) ∧
      (∀ i, t'.colWidths i =
        if args.set_col_width = true ∧ i < args.col_width.length
        then some (args.col_width.getD i PPLength.none) else t.colWidths i) ∧
      (∀ i, t'.colHeights i =
        if args.set_col_height = true ∧ i < args.col_height.length
        then some (args.col_height.getD i PPLength.none) else t.colHeights i) := by
  rw [applyColSizing]
  have hwidth : ∃ t5,
      (if args.set_col_width then widthLoop t args.col_width else pure t) = .ok t5 ∧
      dimsEq t t5 ∧ posEq t t5 ∧ (∀ a b, t5.cells a b = t.cells a b) ∧
      heightsEq t t5 ∧
      (∀ i, t5.colWidths i =
        if args.set_col_width = true ∧ i < args.col_width.length
        then some (args.col_width.getD i PPLength.none) else t.colWidths i) := by
    by_cases hsw : args.set_col_width = true
    · obtain ⟨t5, h5, hd5, hp5, hc5, hh5, hw5⟩ := widthLoop_spec t args.col_width (hwlen hsw)
      refine ⟨t5, by rw [if_pos hsw]; exact h5, hd5, hp5, hc5, hh5, fun i => ?_⟩
      rw [hw5 i]
      by_cases hi : i < args.col_width.length
      · rw [if_pos hi, if_pos ⟨hsw, hi⟩]
      · rw [if_neg hi, if_neg (fun hca => hi hca.2)]
    · refine ⟨t, by rw [if_neg hsw]; rfl, ⟨rfl, rfl⟩, ⟨rfl, rfl, rfl, rfl, rfl⟩,
        fun _ _ => rfl, fun _ => rfl, fun i => ?_⟩
      rw [if_neg (fun hca => hsw hca.1)]
  obtain ⟨t5, h5, hd5, hp5, hc5, hh5, hw5⟩ := hwidth
  have hheight : ∃ t6,
      (if args.set_col_height then heightLoop t5 args.col_height else pure t5) = .ok t6 ∧
      dimsEq t5 t6 ∧ posEq t5 t6 ∧ (∀ a b, t6.cells a b = t5.cells a b) ∧
      widthsEq t5 t6 ∧
      (∀ i, t6.colHeights i =
        if args.set_col_height = true ∧ i < args.col_height.length
        then some (args.col_height.getD i PPLength.none) else t5.colHeights i) := by
    by_cases hsh : args.set_col_height = true
    · obtain ⟨t6, h6, hd6, hp6, hc6, hw6, hh6⟩ :=
        heightLoop_spec t5 args.col_height (by rw [hd5.2]; exact hhlen hsh)
      refine ⟨t6, by rw [if_pos hsh]; exact h6, hd6, hp6, hc6, hw6, fun i => ?_⟩
      rw [hh6 i]
      by_cases hi : i < args.col_height.length
      · rw [if_pos hi, if_pos ⟨hsh, hi⟩]
      · rw [if_neg hi, if_neg (fun hca => hi hca.2)]
    · refine ⟨t5, by rw [if_neg hsh]; rfl, ⟨rfl, rfl⟩, ⟨rfl, rfl, rfl, rfl, rfl⟩,
        fun _ _ => rfl, fun _ => rfl, fun i => ?_⟩
      rw [if_neg (fun hca => hsh hca.1)]
  obtain ⟨t6, h6, hd6, hp6, hc6, hw6, hh6⟩ := hheight
  refine ⟨t6, ?_, dimsEq_trans hd5 hd6, posEq_trans hp5 hp6,
    fun a b => (hc6 a b).trans (hc5 a b), fun i => ?_, fun i => ?_⟩
  · simp only [h5, ok_bind, h6]
  · rw [hw6 i, hw5 i]
  · rw [hh6 i, hh5 i]

theorem buildShape_NT_spec (df : DataFrame) (args : DfToTableArgs)
    (ht : args.transposed = false) (hcf : args.col_formatters = Option.none)
    (hnames : (args.colnames.getD df.columns).length ≤ df.ncols)
    (hwlen : args.set_col_width = true → args.col_width.length ≤ df.ncols)
    (hhlen : args.set_col_height = true → args.col_height.length ≤ df.ncols) :
    ∃ shp, buildShape df args = .ok shp ∧
      shp.nrows = df.nrows + 1 ∧ shp.ncols = df.ncols ∧
      shp.name = args.name ∧
      shp.left = process_position_parameter args.left ∧
      shp.top = process_position_parameter args.top ∧
      shp.width = process_position_parameter args.width ∧
      shp.height = process_position_parameter args.height ∧
      (∀ j, j < (args.colnames.getD df.columns).length →
        (shp.cells 0 j).text = (args.colnames.getD df.columns).getD j ("")) ∧
      (∀ j, (args.colnames.getD df.columns).length ≤ j → (shp.cells 0 j).text = ("")) ∧
      (∀ r c, r < df.nrows → c < df.ncols →
        (shp.cells (r + 1) c).text = pyStr (df.values r c)) ∧
      (∀ i, shp.colWidths i =
        if args.set_col_width = true ∧ i < args.col_width.length
        then some (args.col_width.getD i PPLength.none) else Option.none) ∧
      (∀ i, shp.colHeights i =
        if args.set_col_height = true ∧ i < args.col_height.length
        then some (args.col_height.getD i PPLength.none) else Option.none) := by
  have hb : buildShape df args = (do
      let t1 ← writeHeaderRow
        (mkTable (df.nrows + 1) df.ncols (process_position_parameter args.left)
          (process_position_parameter args.top) (process_position_parameter args.width)
          (process_position_parameter args.height)) (args.colnames.getD df.columns)
      let t2 ← writeDataNT t1 df Option.none
      if args.white_backgr then
        pure (withName t2 args.name) >>= fun y => applyColSizing y args
      else
        styleNT (withName t2 args.name) df.nrows df.ncols args.font_size >>= fun y =>
          applyColSizing y args) := by
    rw [buildShape, ht, hcf]
    rfl
  rw [hb]
  set M := mkTable (df.nrows + 1) df.ncols (process_position_parameter args.left)
      (process_position_parameter args.top) (process_position_parameter args.width)
      (process_position_parameter args.height) with hM
  obtain ⟨t1, h1, hm1, hpres1, hdone1⟩ :=
    writeHeaderRow_spec M (args.colnames.getD df.columns) (Nat.succ_pos df.nrows) hnames
  obtain ⟨t2, h2, hm2, hpres2, hdone2⟩ := writeDataNT_spec t1 df hm1.1.1.ge hm1.1.2.ge
  obtain ⟨wnr, wnc, wcells, wcw, wch, wl, wt, ww, wh, wname⟩ :=
    withName_spec t2 args.name (hm2.2.1.1.trans hm1.2.1.1)
  have hd3r : (withName t2 args.name).nrows = df.nrows + 1 := by
    rw [wnr, hm2.1.1, hm1.1.1, hM]; rfl
  have hd3c : (withName t2 args.name).ncols = df.ncols := by
    rw [wnc, hm2.1.2, hm1.1.2, hM]; rfl
  have tail : ∀ t4, sameCore (withName t2 args.name) t4 →
      ∃ t6, applyColSizing t4 args = .ok t6 ∧
        t6.nrows = df.nrows + 1 ∧ t6.ncols = df.ncols ∧
        t6.name = args.name ∧
        t6.left = process_position_parameter args.left ∧
        t6.top = process_position_parameter args.top ∧
        t6.width = process_position_parameter args.width ∧
        t6.height = process_position_parameter args.height ∧
        (∀ j, j < (args.colnames.getD df.columns).length →
          (t6.cells 0 j).text = (args.colnames.getD df.columns).getD j ("")) ∧
        (∀ j, (args.colnames.getD df.columns).length ≤ j → (t6.cells 0 j).text = ("")) ∧
        (∀ r c, r < df.nrows → c < df.ncols →
          (t6.cells (r + 1) c).text = pyStr (df.values r c)) ∧
        (∀ i, t6.colWidths i =
          if args.set_col_width = true ∧ i < args.col_width.length
          then some (args.col_width.getD i PPLength.none) else Option.none) ∧
        (∀ i, t6.colHeights i =
          if args.set_col_height = true ∧ i < args.col_height.length
          then some (args.col_height.getD i PPLength.none) else Option.none) := by
    intro t4 hs4
    have hd4c : t4.ncols = df.ncols := by rw [hs4.1.1.2, hd3c]
    obtain ⟨t6, h6, hd6, hp6, hc6, hw6f, hh6f⟩ :=
      applyColSizing_spec t4 args (fun h => by rw [hd4c]; exact hwlen h)
        (fun h => by rw [hd4c]; exact hhlen h)
    refine ⟨t6, h6, ?_, ?_, ?_, ?_, ?_, ?_, ?_, ?_, ?_, ?_, ?_, ?_⟩
    · rw [hd6.1, hs4.1.1.1, hd3r]
    · rw [hd6.2, hd4c]
    · rw [hp6.1, hs4.1.2.1.1, wname]
    · rw [hp6.2.1, hs4.1.2.1.2.1, wl, hm2.2.1.2.1, hm1.2.1.2.1, hM]; rfl
    · rw [hp6.2.2.1, hs4.1.2.1.2.2.1, wt, hm2.2.1.2.2.1, hm1.2.1.2.2.1, hM]; rfl
    · rw [hp6.2.2.2.1, hs4.1.2.1.2.2.2.1, ww, hm2.2.1.2.2.2.1, hm1.2.1.2.2.2.1, hM]; rfl
    · rw [hp6.2.2.2.2, hs4.1.2.1.2.2.2.2, wh, hm2.2.1.2.2.2.2, hm1.2.1.2.2.2.2, hM]; rfl
    · intro j hj
      rw [hc6 0 j, hs4.2 0 j, wcells, hpres2 0 j (Or.inl rfl)]
      exact hdone1 j hj
    · intro j hj
      rw [hc6 0 j, hs4.2 0 j, wcells, hpres2 0 j (Or.inl rfl), hpres1 0 j (Or.inr hj), hM]; rfl
    · intro r c hrc hcc
      rw [hc6 (r + 1) c, hs4.2 (r + 1) c, wcells]
      exact hdone2 r c hrc hcc
    · intro i
      rw [hw6f i]
      by_cases hca : args.set_col_width = true ∧ i < args.col_width.length
      · rw [if_pos hca, if_pos hca]
      · rw [if_neg hca, if_neg hca, hs4.1.2.2.1 i, wcw, hm2.2.2.1 i, hm1.2.2.1 i, hM]; rfl
    · intro i
      rw [hh6f i]
      by_cases hca : args.set_col_height = true ∧ i < args.col_height.length
      · rw [if_pos hca, if_pos hca]
      · rw [if_neg hca, if_neg hca, hs4.1.2.2.2 i, wch, hm2.2.2.2 i, hm1.2.2.2 i, hM]; rfl
  by_cases hwb : args.white_backgr = true
  · obtain ⟨t6, hACS, hrest⟩ := tail (withName t2 args.name) (sameCore_refl _)
    refine ⟨t6, ?_, hrest⟩
    simp only [h1, ok_bind, h2]
    rw [if_pos hwb, pure_bind]
    exact hACS
  · obtain ⟨t4, h4, hs4⟩ :=
      styleNT_sameCore (withName t2 args.name) df.nrows df.ncols args.font_size
        hd3r.ge hd3c.ge
    obtain ⟨t6, hACS, hrest⟩ := tail t4 hs4
    refine ⟨t6, ?_, hrest⟩
    simp only [h1, ok_bind, h2]
    rw [if_neg hwb, h4, ok_bind]
    exact hACS

theorem buildShape_T_spec (df : DataFrame) (args : DfToTableArgs)
    (ht : args.transposed = true) (hcf : args.col_formatters = Option.none)
    (hnames : (args.rownames.getD df.index).length ≤ df.nrows)
    (hnz : 0 < df.nrows)
    (hwlen : args.set_col_width = true → args.col_width.length ≤ df.ncols + 1)
    (hhlen : args.set_col_height = true → args.col_height.length ≤ df.ncols + 1) :
    ∃ shp, buildShape df args = .ok shp ∧
      shp.nrows = df.nrows ∧ shp.ncols = df.ncols + 1 ∧
      shp.name = args.name ∧
      shp.left = process_position_parameter args.left ∧
      shp.top = process_position_parameter args.top ∧
      shp.width = process_position_parameter args.width ∧
      shp.height = process_position_parameter args.height ∧
      (∀ i, i < (args.rownames.getD df.index).length →
        (shp.cells i 0).text = (args.rownames.getD df.index).getD i ("")) ∧
      (∀ i, (args.rownames.getD df.index).length ≤ i → (shp.cells i 0).text = ("")) ∧
      (∀ r c, r < df.nrows → c < df.ncols →
        (shp.cells r (c + 1)).text = pyStr (df.values r c)) ∧
      (∀ i, shp.colWidths i =
        if args.set_col_width = true ∧ i < args.col_width.length
        then some (args.col_width.getD i PPLength.none) else Option.none) ∧
      (∀ i, shp.colHeights i =
        if args.set_col_height = true ∧ i < args.col_height.length
        then some (args.col_height.getD i PPLength.none) else Option.none) := by
  have hb : buildShape df args = (do
      let t1 ← writeHeaderCol
        (mkTable df.nrows (df.ncols + 1) (process_position_parameter args.left)
          (process_position_parameter args.top) (process_position_parameter args.width)
          (process_position_parameter args.height)) (args.rownames.getD df.index)
      let t2 ← writeDataT t1 df Option.none
      if args.white_backgr then
        pure (withName t2 args.name) >>= fun y => applyColSizing y args
      else
        styleT (withName t2 args.name) df.nrows df.ncols args.font_size >>= fun y =>
          applyColSizing y args) := by
    rw [buildShape, ht, hcf]
    rfl
  rw [hb]
  set M := mkTable df.nrows (df.ncols + 1) (process_position_parameter args.left)
      (process_position_parameter args.top) (process_position_parameter args.width)
      (process_position_parameter args.height) with hM
  obtain ⟨t1, h1, hm1, hpres1, hdone1⟩ :=
    writeHeaderCol_spec M (args.rownames.getD df.index) (Nat.succ_pos df.ncols) hnames
  obtain ⟨t2, h2, hm2, hpres2, hdone2⟩ := writeDataT_spec t1 df hm1.1.1.ge hm1.1.2.ge
  obtain ⟨wnr, wnc, wcells, wcw, wch, wl, wt, ww, wh, wname⟩ :=
    withName_spec t2 args.name (hm2.2.1.1.trans hm1.2.1.1)
  have hd3r : (withName t2 args.name).nrows = df.nrows := by
    rw [wnr, hm2.1.1, hm1.1.1, hM]; rfl
  have hd3c : (withName t2 args.name).ncols = df.ncols + 1 := by
    rw [wnc, hm2.1.2, hm1.1.2, hM]; rfl
  have tail : ∀ t4, sameCore (withName t2 args.name) t4 →
      ∃ t6, applyColSizing t4 args = .ok t6 ∧
        t6.nrows = df.nrows ∧ t6.ncols = df.ncols + 1 ∧
        t6.name = args.name ∧
        t6.left = process_position_parameter args.left ∧
        t6.top = process_position_parameter args.top ∧
        t6.width = process_position_parameter args.width ∧
        t6.height = process_position_parameter args.height ∧
        (∀ i, i < (args.rownames.getD df.index).length →
          (t6.cells i 0).text = (args.rownames.getD df.index).getD i ("")) ∧
        (∀ i, (args.rownames.getD df.index).length ≤ i → (t6.cells i 0).text = ("")) ∧
        (∀ r c, r < df.nrows → c < df.ncols →
          (t6.cells r (c + 1)).text = pyStr (df.values r c)) ∧
        (∀ i, t6.colWidths i =
          if args.set_col_width = true ∧ i < args.col_width.length
          then some (args.col_width.getD i PPLength.none) else Option.none) ∧
        (∀ i, t6.colHeights i =
          if args.set_col_height = true ∧ i < args.col_height.length
          then some (args.col_height.getD i PPLength.none) else Option.none) := by
    intro t4 hs4
    have hd4c : t4.ncols = df.ncols + 1 := by rw [hs4.1.1.2, hd3c]
    obtain ⟨t6, h6, hd6, hp6, hc6, hw6f, hh6f⟩ :=
      applyColSizing_spec t4 args (fun h => by rw [hd4c]; exact hwlen h)
        (fun h => by rw [hd4c]; exact hhlen h)
    refine ⟨t6, h6, ?_, ?_, ?_, ?_, ?_, ?_, ?_, ?_, ?_, ?_, ?_, ?_⟩
    · rw [hd6.1, hs4.1.1.1, hd3r]
    · rw [hd6.2, hd4c]
    · rw [hp6.1, hs4.1.2.1.1, wname]
    · rw [hp6.2.1, hs4.1.2.1.2.1, wl, hm2.2.1.2.1, hm1.2.1.2.1, hM]; rfl
    · rw [hp6.2.2.1, hs4.1.2.1.2.2.1, wt, hm2.2.1.2.2.1, hm1.2.1.2.2.1, hM]; rfl
    · rw [hp6.2.2.2.1, hs4.1.2.1.2.2.2.1, ww, hm2.2.1.2.2.2.1, hm1.2.1.2.2.2.1, hM]; rfl
    · rw [hp6.2.2.2.2, hs4.1.2.1.2.2.2.2, wh, hm2.2.1.2.2.2.2, hm1.2.1.2.2.2.2, hM]; rfl
    · intro i hi
      rw [hc6 i 0, hs4.2 i 0, wcells, hpres2 i 0 (Or.inr (Or.inl rfl))]
      exact hdone1 i hi
    · intro i hi
      rw [hc6 i 0, hs4.2 i 0, wcells, hpres2 i 0 (Or.inr (Or.inl rfl)),
        hpres1 i 0 (Or.inl hi), hM]; rfl
    · intro r c hrc hcc
      rw [hc6 r (c + 1), hs4.2 r (c + 1), wcells]
      exact hdone2 r c hrc hcc
    · intro i
      rw [hw6f i]
      by_cases hca : args.set_col_width = true ∧ i < args.col_width.length
      · rw [if_pos hca, if_pos hca]
      · rw [if_neg hca, if_neg hca, hs4.1.2.2.1 i, wcw, hm2.2.2.1 i, hm1.2.2.1 i, hM]; rfl
    · intro i
      rw [hh6f i]
      by_cases hca : args.set_col_height = true ∧ i < args.col_height.length
      · rw [if_pos hca, if_pos hca]
      · rw [if_neg hca, if_neg hca, hs4.1.2.2.2 i, wch, hm2.2.2.2 i, hm1.2.2.2 i, hM]; rfl
  by_cases hwb : args.white_backgr = true
  · obtain ⟨t6, hACS, hrest⟩ := tail (withName t2 args.name) (sameCore_refl _)
    refine ⟨t6, ?_, hrest⟩
    simp only [h1, ok_bind, h2]
    rw [if_pos hwb, pure_bind]
    exact hACS
  · obtain ⟨t4, h4, hs4⟩ :=
      styleT_sameCore (withName t2 args.name) df.nrows df.ncols args.font_size
        hd3r.ge hd3c.ge (by rw [hd3r]; exact hnz)
    obtain ⟨t6, hACS, hrest⟩ := tail t4 hs4
    refine ⟨t6, ?_, hrest⟩
    simp only [h1, ok_bind, h2]
    rw [if_neg hwb, h4, ok_bind]
    exact hACS

theorem pure_eq_ok {α : Type} (a : α) : (pure a : Except Unit α) = .ok a := rfl

theorem df_to_table_eq (w : World) (args : DfToTableArgs) (shp : TableShape)
    (h : buildShape w.df args = .ok shp) :
    df_to_table w args =
      .ok ({ slide := { shapes := w.slide.shapes ++ [shp] }, df := w.df }, shp) := by
  rw [df_to_table, h]
  rfl

theorem do_formatting_ok_of_resolve (v : PyValue) (fs : String) (vf : PyValue × String)
    (h : resolveSpec v fs = .ok vf) :
    _do_formatting v fs =
      .ok (match pyFormat vf.1 vf.2 with
        | .ok s => s
        | .error _ => pyFormatPlain vf.1) := by
  rw [_do_formatting, h]
  simp only [ok_bind]
  cases hpf : pyFormat vf.1 vf.2 with
  | ok s => rfl
  | error e => rfl

theorem resolveSpec_ok_unless_int_round (v : PyValue) (fs : String)
    (h : ¬(fs.data.head? = some '.' ∧ fs.data.getLast? = some 'R' ∧ ∃ m, v = PyValue.int m)) :
    ∃ vf, resolveSpec v fs = .ok vf := by
  rw [resolveSpec.eq_def]
  by_cases h0 : fs.data = []
  · rw [if_pos h0]
    exact ⟨_, rfl⟩
  · rw [if_neg h0]
    by_cases h1 : fs.data.head? = some '.'
    · rw [if_pos h1]
      by_cases h2 : fs.data.getLast? = some 'R'
      · rw [if_pos h2]
        cases v with
        | int m => exact absurd ⟨h1, h2, m, rfl⟩ h
        | float q => exact ⟨_, rfl⟩
        | str s => exact ⟨_, rfl⟩
      · rw [if_neg h2]
        exact ⟨_, rfl⟩
    · rw [if_neg h1]
      exact ⟨_, rfl⟩

theorem pyInt1_digit (c : Char) (h : c.isDigit = true) :
    pyInt1 (some c) = .ok ((c.toNat - 48 : ℕ) : ℤ) := by
  simp [pyInt1, h]

theorem round_to_n_int_ne (m : ℤ) (n : ℤ) (h : m ≠ 0) :
    round_to_n (.int m) n =
      .ok (.int (pyRoundInt m (-(qLog10FloorND m.natAbs 1) + (n - 1)))) := by
  simp [round_to_n, h]

theorem roundBranch_int (n : ℤ) (c : Char) (fs : String) (hn : n ≠ 0)
    (hc : c.isDigit = true) (hsecond : fs.data.get? 1 = some c) :
    roundBranch (.int n) fs =
      .ok (.int (pyRoundInt n (-(qLog10FloorND n.natAbs 1) + (((c.toNat - 48 : ℕ) : ℤ) - 1))),
        (",")) := by
  simp only [roundBranch, hsecond]
  simp only [pyInt1_digit c hc, ok_bind]
  simp only [round_to_n_int_ne n _ hn, ok_bind]
  rfl

theorem append_G_getLast (s : String) : (s ++ ("G")).data.getLast? = some 'G' := by
  show (s.data ++ ['G']).getLast? = some 'G'
  rw [List.getLast?_concat]

theorem error_bind {α β : Type} (e : Unit) (g : α → Except Unit β) :
    (Except.error e >>= g : Except Unit β) = .error e := rfl

/-- C1 (counterexample): `_do_formatting` propagates an exception for
the integer value 0 with specification ".2R" (rounding calls
`log10(0)` before the `try` block) and for the integer 5 with ".R"
(`int('R')` raises before the `try` block), so it is not true that it
never propagates an error. -/
theorem do_formatting_raises_on_int_round :
    _do_formatting (.int 0) (".2R") = .error () ∧
    _do_formatting (.int 5) (".R") = .error () :=
  ⟨by decide, by decide⟩

/-- C1 (amended): any exception raised while applying the final format
specification is caught and replaced by the plain string conversion, so
`_do_formatting` returns a string for every value and format string
except when the specification starts with a dot, ends with the rounding
marker `R`, and the value is integer-like — only in that case may the
preprocessing before the `try` block itself raise. -/
theorem do_formatting_total_unless_int_round (v : PyValue) (fs : String)
    (h : ¬(fs.data.head? = some '.' ∧ fs.data.getLast? = some 'R' ∧
      ∃ m, v = PyValue.int m)) :
    ∃ s, _do_formatting v fs = .ok s := by
  obtain ⟨vf, hvf⟩ := resolveSpec_ok_unless_int_round v fs h
  exact ⟨_, do_formatting_ok_of_resolve v fs vf hvf⟩

/-- Witness for the amended C1 at a concrete input. -/
theorem do_formatting_total_unless_int_round_witness :
    ∃ s, _do_formatting (.str ("x")) (".2R") = .ok s :=
  do_formatting_total_unless_int_round (.str ("x")) (".2R")
    (by rintro ⟨-, -, m, hm⟩; exact PyValue.noConfusion hm)

/-- C3 (counterexample): for the integer 1234567 with specification
".7R" the rounding marker is consumed and the value rounded, but the
final format applied is ",G" — thousands-separated general format, not
plain thousands-separator format "," (the `G` append also runs after
the rounding branch) — and the rendered output "1.23457E+06" differs
from the thousands-separated rendering "1,234,567". -/
theorem resolveSpec_round_appends_G_counterexample :
    resolveSpec (.int 1234567) (".7R") = .ok (.int 1234567, (",G")) ∧
    _do_formatting (.int 1234567) (".7R") = .ok ("1.23457E+06") ∧
    intGrouped 1234567 true = ("1,234,567") ∧
    ((",G" : String) ≠ (",")) ∧ (("1.23457E+06" : String) ≠ ("1,234,567")) :=
  ⟨by decide, by decide, by decide, by decide, by decide⟩

/-- C3 (amended): for a nonzero integer-like value and a specification
that starts with a dot, has a digit as its second character and ends
with the rounding marker, `_do_formatting` rounds the value to that
digit's number of significant digits and consumes the marker, but the
specification passed to the final format step is ",G" (the general
marker is appended to the substituted ","), not plain ",". -/
theorem resolveSpec_int_round_spec (n : ℤ) (c : Char) (fs : String)
    (hn : n ≠ 0) (hc : c.isDigit = true)
    (hhead : fs.data.head? = some '.')
    (hsecond : fs.data.get? 1 = some c)
    (hR : fs.data.getLast? = some 'R') :
    ∃ v', round_to_n (.int n) ((c.toNat - 48 : ℕ) : ℤ) = .ok v' ∧
      resolveSpec (.int n) fs = .ok (v', (",G")) := by
  refine ⟨.int (pyRoundInt n (-(qLog10FloorND n.natAbs 1) +
    (((c.toNat - 48 : ℕ) : ℤ) - 1))), round_to_n_int_ne n _ hn, ?_⟩
  rw [resolveSpec.eq_def]
  rw [if_neg (fun h0 => by rw [h0] at hhead; exact Option.noConfusion hhead)]
  rw [if_pos hhead, if_pos hR]
  rw [roundBranch_int n c fs hn hc hsecond]
  simp only [ok_bind]
  rw [if_neg (by decide)]
  rfl

/-- Witness for the amended C3 at a concrete input. -/
theorem resolveSpec_int_round_spec_witness :
    ∃ v', round_to_n (.int 1234) ((('2'.toNat - 48 : ℕ)) : ℤ) = .ok v' ∧
      resolveSpec (.int 1234) (".2R") = .ok (v', (",G")) :=
  resolveSpec_int_round_spec 1234 '2' (".2R") (by decide) (by decide) (by decide)
    (by decide) (by decide)

/-- C4 (counterexample): with specification ".2R" and integer value
1234 the rounding branch IS taken (the value is rounded to 1200 and the
specification rewritten to ","), and the general marker is nevertheless
appended, producing ",G" — contradicting "appended only in the case
where the rounding branch was not taken". -/
theorem resolveSpec_G_after_round_counterexample :
    resolveSpec (.int 1234) (".2R") = .ok (.int 1200, (",G")) ∧
    ((",G" : String).data.getLast? = some 'G') :=
  ⟨by decide, by decide⟩

/-- C4 (amended): for every specification starting with a dot, whenever
`resolveSpec` succeeds the resulting specification ends with the
general marker `G`: the marker is appended whenever the current
specification — including the "," substituted by the rounding branch —
does not already end with it. -/
theorem resolveSpec_dot_ends_G (v : PyValue) (fs : String) (v' : PyValue) (fs' : String)
    (hhead : fs.data.head? = some '.')
    (h : resolveSpec v fs = .ok (v', fs')) :
    fs'.data.getLast? = some 'G' := by
  rw [resolveSpec.eq_def] at h
  rw [if_neg (fun h0 => by rw [h0] at hhead; exact Option.noConfusion hhead)] at h
  rw [if_pos hhead] at h
  cases hrb : (if fs.data.getLast? = some 'R' then roundBranch v fs
      else pure (v, fs)) with
  | error e =>
      rw [hrb] at h
      simp only [error_bind] at h
      exact Except.noConfusion h
  | ok vf =>
      rw [hrb] at h
      simp only [ok_bind, pure_eq_ok, Except.ok.injEq, Prod.mk.injEq] at h
      by_cases hG : vf.2.data.getLast? = some 'G'
      · rw [← h.2, if_pos hG]
        exact hG
      · rw [← h.2, if_neg hG]
        exact append_G_getLast vf.2

/-- Witness for the amended C4 at a concrete input. -/
theorem resolveSpec_dot_ends_G_witness : (".2G" : String).data.getLast? = some 'G' :=
  resolveSpec_dot_ends_G (.float (mkRat 1 1)) (".2") (.float (mkRat 1 1)) (".2G")
    (by decide) (by decide)

/-- C5: with an empty format specification, `_do_formatting` picks the
default by the value's type: integers are rendered with thousands
separators, floats with fixed-point formatting (six decimals), and
strings are returned unchanged. -/
theorem do_formatting_empty_defaults :
    (∀ n : ℤ, _do_formatting (.int n) ("") = .ok (intGrouped n true)) ∧
    (∀ q : ℚ, _do_formatting (.float q) ("") = .ok (fixedSigned q 6 false)) ∧
    (∀ s : String, _do_formatting (.str s) ("") = .ok s) :=
  ⟨fun _ => rfl, fun _ => rfl, fun _ => rfl⟩

/-- C6: `round_to_n` rounds `x` to `n` significant digits by rounding
at the position `-floor(log10(|x|)) + (n - 1)`; in particular
`round_to_n 1234 2 = 1200` and `round_to_n 0.0012345 3 = 0.00123`. -/
theorem round_to_n_spec :
    (∀ (m n : ℤ), m ≠ 0 → round_to_n (.int m) n =
      .ok (.int (pyRoundInt m (-(qLog10FloorND m.natAbs 1) + (n - 1))))) ∧
    (∀ (q : ℚ) (n : ℤ), q ≠ 0 → round_to_n (.float q) n =
      .ok (.float (pyRoundRat q (-(qLog10FloorND q.num.natAbs q.den) + (n - 1))))) ∧
    round_to_n (.int 1234) 2 = .ok (.int 1200) ∧
    round_to_n (.float (mkRat 12345 10000000)) 3 = .ok (.float (mkRat 123 100000)) := by
  refine ⟨fun m n h => round_to_n_int_ne m n h, fun q n h => ?_, by decide, by decide⟩
  simp [round_to_n, h]

/-- Witness for C6 at a concrete nonzero input. -/
theorem round_to_n_spec_witness :
    round_to_n (.int 5) 2 =
      .ok (.int (pyRoundInt 5 (-(qLog10FloorND (5 : ℤ).natAbs 1) + (2 - 1)))) :=
  round_to_n_spec.1 5 2 (by decide)

/-- C2 (counterexample): a 2-by-2 integer dataframe inserted with no
custom formatting (col_formatters omitted) stores the PLAIN string of
each integer: the data cell holding 1234 reads "1234", not the
thousands-separated "1,234" the claim requires. -/
theorem df_to_table_2x2_counterexample :
    ((df_to_table exWorld22 exArgs22).map (fun r => (r.2.cells 1 0).text)) = .ok ("1234") ∧
    intGrouped 1234 true = ("1,234") ∧
    ((df_to_table exWorld22 exArgs22).map (fun r => (r.2.cells 1 0).text)) ≠
      .ok (intGrouped 1234 true) :=
  ⟨by decide, by decide, by decide⟩

/-- C2 (amended): a 2-by-2 integer dataframe inserted with no custom
formatting and supplied column names yields a table whose header row
carries the supplied column names and whose four data cells carry the
plain decimal rendering `str(val)` of each integer — no thousands
separators; the supplied row names are unused in the default
orientation. -/
theorem df_to_table_2x2_plain_str (a b c d : ℤ) (n1 n2 r1 r2 : String) (sl : Slide) :
    ∃ w' shp,
      df_to_table { slide := sl, df := mk2x2 a b c d }
        { colnames := some [n1, n2], rownames := some [r1, r2] } = .ok (w', shp) ∧
      w'.slide.shapes = sl.shapes ++ [shp] ∧
      shp.nrows = 3 ∧ shp.ncols = 2 ∧
      (shp.cells 0 0).text = n1 ∧ (shp.cells 0 1).text = n2 ∧
      (shp.cells 1 0).text = intGrouped a false ∧
      (shp.cells 1 1).text = intGrouped b false ∧
      (shp.cells 2 0).text = intGrouped c false ∧
      (shp.cells 2 1).text = intGrouped d false := by
  obtain ⟨shp, hb, hr, hc, -, -, -, -, -, hhdr, -, hdata, -, -⟩ :=
    buildShape_NT_spec (mk2x2 a b c d)
      { colnames := some [n1, n2], rownames := some [r1, r2] }
      rfl rfl (Nat.le.refl) (fun h => Bool.noConfusion h) (fun h => Bool.noConfusion h)
  refine ⟨_, shp, df_to_table_eq _ _ shp hb, rfl, ?_, ?_, ?_, ?_, ?_, ?_, ?_, ?_⟩
  · rw [hr]; rfl
  · rw [hc]; rfl
  · exact hhdr 0 (Nat.succ_pos 1)
  · exact hhdr 1 (Nat.lt_succ_self 1)
  · exact hdata 0 0 (Nat.succ_pos 1) (Nat.succ_pos 1)
  · exact hdata 0 1 (Nat.succ_pos 1) (Nat.lt_succ_self 1)
  · exact hdata 1 0 (Nat.lt_succ_self 1) (Nat.succ_pos 1)
  · exact hdata 1 1 (Nat.lt_succ_self 1) (Nat.lt_succ_self 1)

/-- C7: for every dataframe, `df_to_table` (with default str
formatting) adds to the slide one table shape sized from the
dataframe's shape — rows+1 by cols in the default orientation (one
extra header row), rows by cols+1 when transposed (one extra label
column) — sets each data cell's text to the rendered value and the
header/label cells to the column/row names, and returns the added
shape: the returned handle is exactly the shape appended to the
slide's shape list. -/
theorem df_to_table_adds_table_shape (w : World) (args : DfToTableArgs)
    (hcf : args.col_formatters = Option.none) :
    (args.transposed = false →
      (args.colnames.getD w.df.columns).length ≤ w.df.ncols →
      (args.set_col_width = true → args.col_width.length ≤ w.df.ncols) →
      (args.set_col_height = true → args.col_height.length ≤ w.df.ncols) →
      ∃ w' shp, df_to_table w args = .ok (w', shp) ∧
        w'.slide.shapes = w.slide.shapes ++ [shp] ∧
        shp.nrows = w.df.nrows + 1 ∧ shp.ncols = w.df.ncols ∧
        (∀ r c, r < w.df.nrows → c < w.df.ncols →
          (shp.cells (r + 1) c).text = pyStr (w.df.values r c)) ∧
        (∀ j, j < (args.colnames.getD w.df.columns).length →
          (shp.cells 0 j).text = (args.colnames.getD w.df.columns).getD j (""))) ∧
    (args.transposed = true →
      (args.rownames.getD w.df.index).length ≤ w.df.nrows →
      0 < w.df.nrows →
      (args.set_col_width = true → args.col_width.length ≤ w.df.ncols + 1) →
      (args.set_col_height = true → args.col_height.length ≤ w.df.ncols + 1) →
      ∃ w' shp, df_to_table w args = .ok (w', shp) ∧
        w'.slide.shapes = w.slide.shapes ++ [shp] ∧
        shp.nrows = w.df.nrows ∧ shp.ncols = w.df.ncols + 1 ∧
        (∀ r c, r < w.df.nrows → c < w.df.ncols →
          (shp.cells r (c + 1)).text = pyStr (w.df.values r c)) ∧
        (∀ i, i < (args.rownames.getD w.df.index).length →
          (shp.cells i 0).text = (args.rownames.getD w.df.index).getD i (""))) := by
  constructor
  · intro ht hn hw hh
    obtain ⟨shp, hb, h1, h2, -, -, -, -, -, hhdr, -, hdata, -, -⟩ :=
      buildShape_NT_spec w.df args ht hcf hn hw hh
    exact ⟨_, shp, df_to_table_eq w args shp hb, rfl, h1, h2, hdata, hhdr⟩
  · intro ht hn hnz hw hh
    obtain ⟨shp, hb, h1, h2, -, -, -, -, -, hhdr, -, hdata, -, -⟩ :=
      buildShape_T_spec w.df args ht hcf hn hnz hw hh
    exact ⟨_, shp, df_to_table_eq w args shp hb, rfl, h1, h2, hdata, hhdr⟩

/-- Witness for C7: a concrete 1-by-1 dataframe with default arguments. -/
theorem df_to_table_adds_table_shape_witness :
    ∃ w' shp, df_to_table exWorld11 {} = .ok (w', shp) ∧
      w'.slide.shapes = exWorld11.slide.shapes ++ [shp] ∧
      shp.nrows = exWorld11.df.nrows + 1 ∧ shp.ncols = exWorld11.df.ncols ∧
      (∀ r c, r < exWorld11.df.nrows → c < exWorld11.df.ncols →
        (shp.cells (r + 1) c).text = pyStr (exWorld11.df.values r c)) ∧
      (∀ j, j < ((({} : DfToTableArgs).colnames).getD exWorld11.df.columns).length →
        (shp.cells 0 j).text =
          ((({} : DfToTableArgs).colnames).getD exWorld11.df.columns).getD j ("")) :=
  (df_to_table_adds_table_shape exWorld11 {} rfl).1 rfl (by decide)
    (fun h => Bool.noConfusion h) (fun h => Bool.noConfusion h)

/-- C8: `process_position_parameter` maps a missing (None) position
argument to the fixed four-centimeter length Cm(4) (1440000 EMU), an
integer n to Cm(n) (n centimeters), and passes any other value through
unchanged; `df_to_table` stores the processed left/top/width/height on
the created shape. -/
theorem process_position_parameter_spec :
    process_position_parameter PPLength.none = Cm 4 ∧
    Cm 4 = PPLength.emu 1440000 ∧
    (∀ n : ℤ, process_position_parameter (PPLength.int n) = Cm n) ∧
    (∀ e : ℤ, process_position_parameter (PPLength.emu e) = PPLength.emu e) ∧
    (∀ (w : World) (args : DfToTableArgs), args.transposed = false →
      args.col_formatters = Option.none →
      (args.colnames.getD w.df.columns).length ≤ w.df.ncols →
      (args.set_col_width = true → args.col_width.length ≤ w.df.ncols) →
      (args.set_col_height = true → args.col_height.length ≤ w.df.ncols) →
      ∃ w' shp, df_to_table w args = .ok (w', shp) ∧
        shp.left = process_position_parameter args.left ∧
        shp.top = process_position_parameter args.top ∧
        shp.width = process_position_parameter args.width ∧
        shp.height = process_position_parameter args.height) := by
  refine ⟨rfl, rfl, fun n => rfl, fun e => rfl, ?_⟩
  intro w args ht hcf hn hw hh
  obtain ⟨shp, hb, -, -, -, hl, htp, hwd, hht, -, -, -, -, -⟩ :=
    buildShape_NT_spec w.df args ht hcf hn hw hh
  exact ⟨_, shp, df_to_table_eq w args shp hb, hl, htp, hwd, hht⟩

/-- Witness for C8: default position arguments on a concrete call. -/
theorem process_position_parameter_spec_witness :
    ∃ w' shp, df_to_table exWorld11 {} = .ok (w', shp) ∧
      shp.left = process_position_parameter PPLength.none ∧
      shp.top = process_position_parameter PPLength.none ∧
      shp.width = process_position_parameter PPLength.none ∧
      shp.height = process_position_parameter PPLength.none :=
  process_position_parameter_spec.2.2.2.2 exWorld11 {} rfl rfl (by decide)
    (fun h => Bool.noConfusion h) (fun h => Bool.noConfusion h)

/-- C9: `df_to_table` never mutates the dataframe: whenever the call
succeeds, the dataframe component of the resulting state equals the
input dataframe; only the slide gains the new table shape. -/
theorem df_to_table_preserves_df (w : World) (args : DfToTableArgs) :
    (match df_to_table w args with
      | .ok r => r.1.df = w.df
      | .error _ => True) := by
  rw [df_to_table]
  cases h : buildShape w.df args with
  | ok shp => exact rfl
  | error e => exact trivial

/-- C10: column widths are assigned only when `set_col_width` is true,
and then exactly the columns with index below `len(col_width)` receive
the listed widths; with the default empty list nothing is assigned even
when the flag is set, and column heights behave identically via
`set_col_height`/`col_height`. -/
theorem df_to_table_col_overrides (w : World) (args : DfToTableArgs)
    (hcf : args.col_formatters = Option.none) :
    (args.transposed = false →
      (args.colnames.getD w.df.columns).length ≤ w.df.ncols →
      (args.set_col_width = true → args.col_width.length ≤ w.df.ncols) →
      (args.set_col_height = true → args.col_height.length ≤ w.df.ncols) →
      ∃ w' shp, df_to_table w args = .ok (w', shp) ∧
        (∀ i, shp.colWidths i =
          if args.set_col_width = true ∧ i < args.col_width.length
          then some (args.col_width.getD i PPLength.none) else Option.none) ∧
        (∀ i, shp.colHeights i =
          if args.set_col_height = true ∧ i < args.col_height.length
          then some (args.col_height.getD i PPLength.none) else Option.none)) ∧
    (args.transposed = true →
      (args.rownames.getD w.df.index).length ≤ w.df.nrows →
      0 < w.df.nrows →
      (args.set_col_width = true → args.col_width.length ≤ w.df.ncols + 1) →
      (args.set_col_height = true → args.col_height.length ≤ w.df.ncols + 1) →
      ∃ w' shp, df_to_table w args = .ok (w', shp) ∧
        (∀ i, shp.colWidths i =
          if args.set_col_width = true ∧ i < args.col_width.length
          then some (args.col_width.getD i PPLength.none) else Option.none) ∧
        (∀ i, shp.colHeights i =
          if args.set_col_height = true ∧ i < args.col_height.length
          then some (args.col_height.getD i PPLength.none) else Option.none)) := by
  constructor
  · intro ht hn hw hh
    obtain ⟨shp, hb, -, -, -, -, -, -, -, -, -, -, hws, hhs⟩ :=
      buildShape_NT_spec w.df args ht hcf hn hw hh
    exact ⟨_, shp, df_to_table_eq w args shp hb, hws, hhs⟩
  · intro ht hn hnz hw hh
    obtain ⟨shp, hb, -, -, -, -, -, -, -, -, -, -, hws, hhs⟩ :=
      buildShape_T_spec w.df args ht hcf hn hnz hw hh
    exact ⟨_, shp, df_to_table_eq w args shp hb, hws, hhs⟩

/-- Witness for C10: one width override and an empty height list with
both flags set, on a concrete 1-by-1 dataframe. -/
theorem df_to_table_col_overrides_witness :
    ∃ w' shp, df_to_table exWorld11 exArgsW = .ok (w', shp) ∧
      (∀ i, shp.colWidths i =
        if exArgsW.set_col_width = true ∧ i < exArgsW.col_width.length
        then some (exArgsW.col_width.getD i PPLength.none) else Option.none) ∧
      (∀ i, shp.colHeights i =
        if exArgsW.set_col_height = true ∧ i < exArgsW.col_height.length
        then some (exArgsW.col_height.getD i PPLength.none) else Option.none) :=
  (df_to_table_col_overrides exWorld11 exArgsW rfl).1 rfl (by decide)
    (fun _ => by decide) (fun _ => by decide)
